import Mathlib

/-!
Verification of the beatsaber-hook instruction-parsing core: a shallow
embedding of `src/shared/utils/instruction-parsing.cpp` and
`src/shared/utils/capstone-utils.hpp`, with theorems settling the frozen
claims about the bit-field codec, the instruction decoder, the
address-resolution algorithms, the pattern-scan engine and the
dependency-tracking traversal engine.

Machine integers are modelled as `Nat`/`Int` with explicit `% 2 ^ w`
where C++ overflow semantics matter.  The class declarations and the
leaf bit helpers live in `utils.h`, which is not part of the provided
sources; those definitions are modelled from the spec and are marked
`Modelled from the spec:` in their doc comments.
-/

namespace BSHook

/-- Modelled from the spec: `bits(code, hi, lo)` extracts the unsigned
bit field of `code` between bit positions `hi` and `lo` inclusive
(declared in the missing `utils.h`). -/
def bits (code hi lo : Nat) : Nat :=
  (code >>> lo) % 2 ^ (hi - lo + 1)

/-- Modelled from the spec: `SignExtend<int64_t>(value, numBits)` widens
an `numBits`-wide field to a signed integer preserving the sign bit
(declared in the missing `utils.h`). -/
def SignExtend (value : Nat) (numBits : Nat) : Int :=
  if value % 2 ^ numBits < 2 ^ (numBits - 1) then (value % 2 ^ numBits : Int)
  else (value % 2 ^ numBits : Int) - 2 ^ numBits

/-- Modelled from the spec: `ZeroExtend<int64_t>(value, numBits)` widens
an unsigned `numBits`-wide field, discarding sign (declared in the
missing `utils.h`). -/
def ZeroExtend (value : Nat) (numBits : Nat) : Int :=
  (value % 2 ^ numBits : Int)

/-- Modelled from the spec: `trunc(v, n)` truncates a value to its low
`n` bits (declared in the missing `utils.h`). -/
def trunc (v n : Nat) : Nat :=
  v % 2 ^ n

/-- Modelled from the spec: the C++ `~` complement of a 32-bit unsigned
value, used in `DecodeBitMasks` as `~imms`. -/
def compl32 (v : Nat) : Nat :=
  2 ^ 32 - 1 - v % 2 ^ 32

/-- Modelled from the spec: `HighestSetBit(x, n)` returns the index of
the highest set bit of `x` among its low `n` bits, or `-1` when none is
set (declared in the missing `utils.h`). -/
def HighestSetBit (x : Nat) : Nat → Int
  | 0 => -1
  | n + 1 => if x / 2 ^ n % 2 = 1 then (n : Int) else HighestSetBit x n

/-- Modelled from the spec: `ROR(pattern, size, R)` rotates the low
`size` bits of `pattern` right by `R` (declared in the missing
`utils.h`). -/
def ROR (pattern size R : Nat) : Nat :=
  ((pattern >>> R) ||| (pattern <<< (size - R))) % 2 ^ size

/-- Replication loop of `DecodeBitMasks`: `while (size < regSize) {
pattern |= (pattern << size); size *= 2; }` over `uint64_t`.  The loop
is written with structural fuel; since `size` at least doubles on every
iteration and starts positive, a fuel of `regSize` always suffices to
drain the loop, so the fuelled function agrees with the C++ loop on
every reachable input. -/
def replicatePatternGo (fuel : Nat) (regSize : Nat) (size : Nat) (pattern : Nat) : Nat :=
  match fuel with
  | 0 => pattern
  | fuel + 1 =>
    if size < regSize then
      replicatePatternGo fuel regSize (size * 2) ((pattern ||| (pattern <<< size)) % 2 ^ 64)
    else pattern

/-- Replication of a `size`-wide element to fill `regSize` bits. -/
def replicatePattern (regSize : Nat) (size : Nat) (pattern : Nat) : Nat :=
  replicatePatternGo regSize regSize size pattern

/-- The all-ones failure sentinel of `DecodeBitMasks`: `return -1` on a
`uint64_t` return type. -/
def sentinel64 : Nat := 2 ^ 64 - 1

/-- `DecodeBitMasks(N, imms, immr, regSize)` from
`instruction-parsing.cpp` lines 14-33: the architecture's
logical-immediate decode. -/
def DecodeBitMasks (N imms immr regSize : Nat) : Nat :=
  let len := HighestSetBit ((N <<< 6) ||| trunc (compl32 imms) 6) 7
  if len < 1 then sentinel64
  else
    let size := 1 <<< len.toNat
    let levels := size - 1
    let R := immr &&& levels
    let S := imms &&& levels
    if S = levels then sentinel64
    else
      let pattern := (1 <<< (S + 1)) - 1
      replicatePattern regSize size (ROR pattern size R)

/-- Spec-side reformulation (claim C1): the element length computed from
the highest set bit of `(N<<6) | ~imms` truncated to 6 bits. -/
def elementLen (N imms : Nat) : Int :=
  HighestSetBit ((N <<< 6) ||| trunc (compl32 imms) 6) 7

/-- Spec-side reformulation (claim C1): the element width `1 << len`. -/
def elementSize (N imms : Nat) : Nat :=
  1 <<< (elementLen N imms).toNat

/-- Spec-side reformulation (claim C1): the mask of the rightmost
`elementSize` bits used to mask `imms` and `immr`. -/
def elementLevels (N imms : Nat) : Nat :=
  elementSize N imms - 1

/-- Spec-side reformulation (claim C1): the failure condition of the
logical-immediate decode - either the computed length is less than 1 or
`imms` masked to the element width is all ones. -/
def decodeBitMasksFails (N imms : Nat) : Prop :=
  elementLen N imms < 1 ∨ imms &&& elementLevels N imms = elementLevels N imms

instance (N imms : Nat) : Decidable (decodeBitMasksFails N imms) :=
  inferInstanceAs (Decidable (elementLen N imms < 1 ∨
    imms &&& elementLevels N imms = elementLevels N imms))

/-- Conversion of a `uint64_t` value to `int64_t`, as happens when
`DecodeBitMasks`'s result is stored into the decoder's `imm` field. -/
def toInt64 (v : Nat) : Int :=
  if v % 2 ^ 64 < 2 ^ 63 then (v % 2 ^ 64 : Int) else (v % 2 ^ 64 : Int) - 2 ^ 64

/-- Branch classification of a decoded instruction (`branchType`). -/
inductive BranchType where
  | NOBRANCH
  | DIR
  | INDIR
  | DIRCALL
  | INDCALL
  | RET
deriving DecidableEq, Repr

/-- String constant `unalloc` from `instruction-parsing.cpp` line 7. -/
def unalloc : String := "UNALLOCATED"

/-- String constant `pcRelAddr` from `instruction-parsing.cpp` line 8. -/
def pcRelAddr : String := "PC-rel. addressing"

/-- String constant `ldSt` from `instruction-parsing.cpp` line 9. -/
def ldSt : String := "Loads and Stores"

/-- String constant `addSubImm` from `instruction-parsing.cpp` line 10. -/
def addSubImm : String := "Add/subtract (immediate)"

/-- Modelled from the spec: register index 31 seen as the stack pointer
(`Register::SP` in the missing `utils.h`). -/
def SP : Nat := 31

/-- Modelled from the spec: register index 31 seen as the zero register
(`Register::RZR` in the missing `utils.h`). -/
def RZR : Nat := 31

/-- Modelled from the spec: register index 30, the link register
(`Register::RLINK` in the missing `utils.h`). -/
def RLINK : Int := 30

/-- Number of classification levels in the `kind` array
(`sizeof(kind) / sizeof(kind[0])`); the missing `utils.h` declares the
array, and every fully parsed decoder path fills exactly three levels. -/
def kindSize : Nat := 3

/-- The decoded instruction record.  Register slots use the C++ `-1`
sentinel for "none"; `imm` and `label` are `std::optional`; default
field values model the in-class initializers of the missing `utils.h`
(the spec describes them as empty/none/invalid). -/
structure Instruction where
  addr : Nat := 0
  kind : List String := []
  valid : Bool := true
  parsed : Bool := false
  Rd : Int := -1
  Rd2 : Int := -1
  RdCanBeSP : Bool := false
  numSourceRegisters : Int := -1
  Rs : List Int := [-1, -1, -1]
  Rs0CanBeSP : Bool := false
  imm : Option Int := none
  result : Int := 0
  label : Option Int := none
  branchType : BranchType := .NOBRANCH
  cond : Int := -1
  shiftType : Int := -1
  extendType : Int := -1
  wback : Bool := false
  postindex : Bool := false
deriving DecidableEq, Repr

/-- Decoder for the Data Processing -- Register family
(`instruction-parsing.cpp` lines 210-468). -/
def decodeDataProcessingRegister (code : Nat) (i0 : Instruction) : Instruction :=
  let i := { i0 with kind := ["Data Processing -- Register"] }
  let op1 := bits code 28 28
  let op2 := bits code 24 21
  let sf := bits code 31 31
  if op1 = 0 then
    let Rd := bits code 4 0
    let Rn := bits code 9 5
    let Rm := bits code 20 16
    let i := { i with
               numSourceRegisters := 2
               Rd := (Rd : Int)
               Rs := (i.Rs.set 0 (Rn : Int)).set 1 (Rm : Int) }
    if op2 &&& 8 = 0 then
      let i := { i with
                 kind := i.kind ++ ["Logical (shifted register)"]
                 RdCanBeSP := false
                 Rs0CanBeSP := false
                 imm := some (bits code 15 10 : Int)
                 shiftType := (bits code 23 22 : Int) }
      let N := bits code 21 21
      let opc := bits code 30 29
      if opc = 1 then
        if N = 0 then
          if bits code 23 22 = 0 ∧ bits code 15 10 = 0 ∧ Rn = RZR then
            let i := { i with kind := i.kind ++ ["MOV (register)"] }
            if Rm = RZR then { i with numSourceRegisters := 0, result := 0 }
            else { i with Rs := i.Rs.set 0 (i.Rs.getD 1 (-1)), numSourceRegisters := 1 }
          else if sf = 0 then { i with kind := i.kind ++ ["ORR (shifted register) — 32-bit"] }
          else { i with kind := i.kind ++ ["ORR (shifted register) — 64-bit"] }
        else i
      else i
    else
      let op := bits code 30 30
      let S := bits code 29 29
      if op2 &&& 1 = 0 then
        let i := { i with
                   kind := i.kind ++ ["Add/subtract (shifted register)"]
                   RdCanBeSP := false
                   Rs0CanBeSP := false
                   imm := some (bits code 15 10 : Int)
                   shiftType := (bits code 23 22 : Int) }
        if bits code 23 22 = 3 ∨ (sf = 0 ∧ bits code 15 10 &&& 32 ≠ 0) then
          { i with kind := i.kind ++ [unalloc] }
        else if op = 0 then
          if S = 0 then
            if sf = 1 then { i with kind := i.kind ++ ["ADD (shifted register) — 64-bit"] }
            else { i with kind := i.kind ++ ["ADD (shifted register) — 32-bit"] }
          else if Rd = RZR then
            { i with kind := i.kind ++ ["CMN (shifted register)"], Rd := -1 }
          else if sf = 1 then { i with kind := i.kind ++ ["ADDS (shifted register) — 64-bit"] }
          else { i with kind := i.kind ++ ["ADDS (shifted register) — 32-bit"] }
        else
          if S = 0 then
            if Rn = RZR then
              { i with
                kind := i.kind ++ ["NEG (shifted register)"]
                Rs := i.Rs.set 0 (i.Rs.getD 1 (-1))
                numSourceRegisters := 1 }
            else if sf = 1 then { i with kind := i.kind ++ ["SUB (shifted register) — 64-bit"] }
            else { i with kind := i.kind ++ ["SUB (shifted register) — 32-bit"] }
          else
            if Rd = RZR then
              { i with kind := i.kind ++ ["CMP (shifted register)"], Rd := -1 }
            else if Rn = RZR then
              { i with
                kind := i.kind ++ ["NEGS"]
                Rs := i.Rs.set 0 (i.Rs.getD 1 (-1))
                numSourceRegisters := 1 }
            else if sf = 1 then { i with kind := i.kind ++ ["SUBS (shifted register) — 64-bit"] }
            else { i with kind := i.kind ++ ["SUBS (shifted register) — 32-bit"] }
      else
        let i := { i with
                   kind := i.kind ++ ["Add/subtract (extended register)"]
                   RdCanBeSP := S = 0
                   Rs0CanBeSP := true
                   extendType := (bits code 15 13 : Int)
                   imm := some (bits code 12 10 : Int) }
        let opt := bits code 23 22
        let i :=
          if Rn = SP then
            if sf = 0 then
              if bits code 15 13 = 2 then { i with shiftType := 0 } else i
            else
              if bits code 15 13 = 3 then { i with shiftType := 0 } else i
          else i
        if opt ≠ 0 ∨ bits code 12 10 > 4 then { i with kind := i.kind ++ [unalloc] }
        else if op = 0 then
          if S = 0 then
            if sf = 1 then { i with kind := i.kind ++ ["ADD (shifted register) — 64-bit"] }
            else { i with kind := i.kind ++ ["ADD (shifted register) — 32-bit"] }
          else if Rd = RZR then
            { i with kind := i.kind ++ ["CMN (shifted register)"], Rd := -1 }
          else if sf = 1 then { i with kind := i.kind ++ ["ADDS (shifted register) — 64-bit"] }
          else { i with kind := i.kind ++ ["ADDS (shifted register) — 32-bit"] }
        else
          if S = 0 then
            if Rn = RZR then
              { i with
                kind := i.kind ++ ["NEG (shifted register)"]
                Rs := i.Rs.set 0 (i.Rs.getD 1 (-1))
                numSourceRegisters := 1 }
            else if sf = 1 then { i with kind := i.kind ++ ["SUB (shifted register) — 64-bit"] }
            else { i with kind := i.kind ++ ["SUB (shifted register) — 32-bit"] }
          else
            if Rd = RZR then
              { i with kind := i.kind ++ ["CMP (shifted register)"], Rd := -1 }
            else if Rn = RZR then
              { i with
                kind := i.kind ++ ["NEGS"]
                Rs := i.Rs.set 0 (i.Rs.getD 1 (-1))
                numSourceRegisters := 1 }
            else if sf = 1 then { i with kind := i.kind ++ ["SUBS (shifted register) — 64-bit"] }
            else { i with kind := i.kind ++ ["SUBS (shifted register) — 32-bit"] }
  else
    if op2 = 4 then
      let Rd := bits code 4 0
      let Rn := bits code 9 5
      let Rm := bits code 20 16
      let i := { i with
                 kind := i.kind ++ ["Conditional select"]
                 RdCanBeSP := false
                 Rs0CanBeSP := false
                 numSourceRegisters := 2
                 Rd := (Rd : Int)
                 Rs := (i.Rs.set 0 (Rn : Int)).set 1 (Rm : Int)
                 cond := (bits code 15 12 : Int) }
      let op := bits code 30 30
      let S := bits code 29 29
      let op2b := bits code 11 10
      if S = 1 ∨ op2b &&& 2 ≠ 0 then { i with kind := i.kind ++ [unalloc] }
      else if op = 0 then
        if op2b = 0 then
          if sf = 1 then { i with kind := i.kind ++ ["CSEL — 64-bit"] }
          else { i with kind := i.kind ++ ["CSEL — 32-bit"] }
        else
          if sf = 1 then { i with kind := i.kind ++ ["CSINC — 64-bit"] }
          else { i with kind := i.kind ++ ["CSINC — 32-bit"] }
      else
        if op2b = 0 then
          if sf = 1 then { i with kind := i.kind ++ ["CSINV — 64-bit"] }
          else { i with kind := i.kind ++ ["CSINV — 32-bit"] }
        else
          if sf = 1 then { i with kind := i.kind ++ ["CSNEG — 64-bit"] }
          else { i with kind := i.kind ++ ["CSNEG — 32-bit"] }
    else if op2 &&& 8 = 8 then
      let Rd := bits code 4 0
      let Rn := bits code 9 5
      let Rm := bits code 20 16
      let Ra := bits code 14 10
      let i := { i with
                 kind := i.kind ++ ["Data-processing (3 source)"]
                 RdCanBeSP := false
                 Rs0CanBeSP := false
                 numSourceRegisters := 3
                 Rd := (Rd : Int)
                 Rs := ((i.Rs.set 0 (Rn : Int)).set 1 (Rm : Int)).set 2 (Ra : Int) }
      let i := if Ra = RZR then { i with numSourceRegisters := 2 } else i
      let o0 := bits code 15 15
      let op31 := bits code 23 21
      let op54 := bits code 30 29
      if op54 ≠ 0 ∨ op31 = 3 ∨ op31 = 4 ∨ op31 = 7 ∨
          (o0 = 1 ∧ (op31 = 2 ∨ op31 = 6)) ∨ (sf = 0 ∧ op31 ≠ 0) then
        { i with kind := i.kind ++ [unalloc] }
      else if op31 = 0 then
        if o0 = 0 then
          if Ra = RZR then { i with kind := i.kind ++ ["MUL"] }
          else if sf = 1 then { i with kind := i.kind ++ ["MADD — 64-bit"] }
          else { i with kind := i.kind ++ ["MADD — 32-bit"] }
        else
          if Ra = RZR then { i with kind := i.kind ++ ["MNEG"] }
          else if sf = 1 then { i with kind := i.kind ++ ["MSUB — 64-bit"] }
          else { i with kind := i.kind ++ ["MSUB — 32-bit"] }
      else
        let U := bits code 23 23
        if op31 &&& 3 = 1 then
          if o0 = 0 then
            if Ra = RZR then
              { i with kind := i.kind ++ [if U = 1 then "UMULL" else "SMULL"] }
            else { i with kind := i.kind ++ [if U = 1 then "UMADDL" else "SMADDL"] }
          else
            if Ra = RZR then
              { i with kind := i.kind ++ [if U = 1 then "UMNEGL" else "SMNEGL"] }
            else { i with kind := i.kind ++ [if U = 1 then "UMSUBL" else "SMSUBL"] }
        else
          if Ra = RZR then { i with kind := i.kind ++ [if U = 1 then "UMULH" else "SMULH"] }
          else { i with kind := i.kind ++ [unalloc] }
    else i

/-- Decoder for the Data Processing -- Immediate family
(`instruction-parsing.cpp` lines 472-624). -/
def decodeDataProcessingImmediate (code pc : Nat) (i0 : Instruction) : Instruction :=
  let i := { i0 with kind := ["Data Processing -- Immediate"], Rd := (bits code 4 0 : Int) }
  let sf := bits code 31 31
  let op0 := bits code 25 24
  let op1 := bits code 23 22
  if op0 = 0 then
    let i := { i with
               kind := i.kind ++ [pcRelAddr]
               RdCanBeSP := false
               numSourceRegisters := 0 }
    let immlo := bits code 30 29
    let immhi := bits code 23 5
    let immI := (immhi <<< 2) + immlo
    if sf = 1 then
      let pcA := pc / 2 ^ 12 * 2 ^ 12
      let privateImm := SignExtend (immI <<< 12) 33
      let res := (pcA : Int) + privateImm
      { i with kind := i.kind ++ ["ADRP"], result := res, label := some res }
    else
      let privateImm := SignExtend immI 21
      let res := (pc : Int) + privateImm
      { i with kind := i.kind ++ ["ADR"], result := res, label := some res }
  else if op0 = 1 then
    let Rn := bits code 9 5
    let i := { i with
               numSourceRegisters := 1
               Rs0CanBeSP := true
               Rs := i.Rs.set 0 (Rn : Int) }
    let op := bits code 30 30
    let S := bits code 29 29
    if op1 ||| 1 = 3 then
      let i := { i with
                 kind := i.kind ++ ["Add/subtract (immediate, with tags)"]
                 RdCanBeSP := true }
      if sf = 0 ∨ (sf = 1 ∧ S = 1) then { i with kind := i.kind ++ [unalloc] } else i
    else
      let i := { i with kind := i.kind ++ [addSubImm], RdCanBeSP := S = 0 }
      let shift := op1
      let imm12 := bits code 21 10
      let immval : Int := ZeroExtend imm12 12 * 2 ^ (12 * shift)
      let i := { i with imm := some immval }
      if op = 0 then
        if S = 0 then
          if immval = 0 ∧ (bits code 4 0 = SP ∨ Rn = SP) then
            { i with kind := i.kind ++ ["MOV (to/from SP)"] }
          else if sf = 1 then { i with kind := i.kind ++ ["ADD (immediate) — 64-bit"] }
          else { i with kind := i.kind ++ ["ADD (immediate) — 32-bit"] }
        else if bits code 4 0 = RZR then
          { i with kind := i.kind ++ ["CMN (immediate)"], Rd := -1 }
        else if sf = 1 then { i with kind := i.kind ++ ["ADDS (immediate) — 64-bit"] }
        else { i with kind := i.kind ++ ["ADDS (immediate) — 32-bit"] }
      else
        let i := { i with imm := some (-immval) }
        if S = 0 then
          if sf = 1 then { i with kind := i.kind ++ ["SUB (immediate) — 64-bit"] }
          else { i with kind := i.kind ++ ["SUB (immediate) — 32-bit"] }
        else if bits code 4 0 = RZR then
          { i with kind := i.kind ++ ["CMP (immediate)"], Rd := -1 }
        else if sf = 1 then { i with kind := i.kind ++ ["SUBS (immediate) — 64-bit"] }
        else { i with kind := i.kind ++ ["SUBS (immediate) — 32-bit"] }
  else if op0 = 2 then
    let opc := bits code 30 29
    if op1 &&& 2 = 0 then
      let N := bits code 22 22
      let immr := bits code 21 16
      let imms := bits code 15 10
      let Rn := bits code 9 5
      let immI := toInt64 (DecodeBitMasks N imms immr (if sf = 1 then 64 else 32))
      let i := { i with
                 kind := i.kind ++ ["Logical (immediate)"]
                 RdCanBeSP := opc ≠ 3
                 Rs0CanBeSP := false
                 imm := some immI }
      let i := if immI = -1 then { i with valid := false } else i
      let i := if Rn = RZR then { i with numSourceRegisters := 0 }
               else { i with numSourceRegisters := 1, Rs := i.Rs.set 0 (Rn : Int) }
      if sf = 0 ∧ N = 1 then { i with kind := i.kind ++ [unalloc] }
      else if opc = 0 then
        let i := if Rn = RZR then { i with result := 0 } else i
        if sf = 0 then { i with kind := i.kind ++ ["AND (immediate) — 32-bit"] }
        else { i with kind := i.kind ++ ["AND (immediate) — 64-bit"] }
      else if opc = 1 then
        let i := if Rn = RZR then { i with result := immI } else i
        if sf = 0 then { i with kind := i.kind ++ ["ORR (immediate) — 32-bit"] }
        else { i with kind := i.kind ++ ["ORR (immediate) — 64-bit"] }
      else if opc = 2 then
        let i := if Rn = RZR then { i with result := immI } else i
        if sf = 0 then { i with kind := i.kind ++ ["EOR (immediate) — 32-bit"] }
        else { i with kind := i.kind ++ ["EOR (immediate) — 64-bit"] }
      else
        let i := if Rn = RZR then { i with result := 0 } else i
        if sf = 0 then { i with kind := i.kind ++ ["ANDS (immediate) — 32-bit"] }
        else { i with kind := i.kind ++ ["ANDS (immediate) — 64-bit"] }
    else i
  else
    if op1 &&& 2 = 0 then { i with kind := i.kind ++ ["Bitfield"] }
    else { i with kind := i.kind ++ ["Extract"] }

/-- Decoder for the Branches, Exception Generating and System
instructions family (`instruction-parsing.cpp` lines 625-766). -/
def decodeBranches (code pc : Nat) (i0 : Instruction) : Instruction :=
  let i := { i0 with
             kind := ["Branches, Exception Generating and System instructions"]
             Rd := -1
             RdCanBeSP := false
             Rs0CanBeSP := false }
  let op0 := bits code 31 29
  let op1 := bits code 25 12
  if op0 = 2 then
    if op1 &&& 8192 ≠ 0 then { i with kind := i.kind ++ [unalloc] }
    else
      let i := { i with
                 kind := i.kind ++ ["Conditional branch (immediate)"]
                 numSourceRegisters := 0 }
      let o1 := bits code 24 24
      let imm19 := bits code 23 5
      let o0 := bits code 4 4
      let i := { i with cond := (bits code 3 0 : Int) }
      if o0 = 1 ∨ o1 = 1 then { i with kind := i.kind ++ [unalloc] }
      else
        { i with
          kind := i.kind ++ ["B.cond"]
          label := some ((pc : Int) + SignExtend imm19 19 * 4)
          branchType := .DIR }
  else if op0 = 6 then
    if op1 &&& 8192 ≠ 0 then
      let i := { i with
                 kind := i.kind ++ ["Unconditional branch (register)"]
                 numSourceRegisters := 1
                 Rs := i.Rs.set 0 (bits code 9 5 : Int) }
      let opc := bits code 24 21
      let op2 := bits code 20 16
      let op3 := bits code 15 10
      let op4 := bits code 4 0
      if op2 ≠ 31 then { i with kind := i.kind ++ [unalloc] }
      else if opc = 0 then
        let i := { i with branchType := .INDIR }
        if op3 = 0 then
          if op4 ≠ 0 then { i with kind := i.kind ++ [unalloc] }
          else { i with kind := i.kind ++ ["BR"] }
        else i
      else if opc = 1 then
        let i := { i with branchType := .INDCALL, Rd := RLINK, result := (pc : Int) + 4 }
        if op3 = 0 then
          if op4 ≠ 0 then { i with kind := i.kind ++ [unalloc] }
          else { i with kind := i.kind ++ ["BLR"] }
        else i
      else if opc = 2 then
        let i := { i with branchType := .RET }
        if op3 = 0 then
          if op4 ≠ 0 then { i with kind := i.kind ++ [unalloc] }
          else { i with kind := i.kind ++ ["RET"] }
        else i
      else i
    else i
  else if op0 &&& 3 = 0 then
    let i := { i with
               kind := i.kind ++ ["Unconditional branch (immediate)"]
               numSourceRegisters := 0 }
    let op := bits code 31 31
    let imm26 := bits code 25 0
    let offset := SignExtend imm26 26 * 4
    let i := { i with label := some ((pc : Int) + offset) }
    if op = 0 then { i with kind := i.kind ++ ["B"], branchType := .DIR }
    else
      { i with
        kind := i.kind ++ ["BL"]
        branchType := .DIRCALL
        Rd := RLINK
        result := (pc : Int) + 4 }
  else if op0 &&& 3 = 1 then
    if op1 &&& 8192 = 0 then
      let i := { i with
                 kind := i.kind ++ ["Compare and branch (immediate)"]
                 numSourceRegisters := 1
                 Rs := i.Rs.set 0 (bits code 4 0 : Int) }
      let sf := bits code 31 31
      let op := bits code 24 24
      let imm19 := bits code 23 5
      let i :=
        if op = 0 then
          if sf = 1 then { i with kind := i.kind ++ ["CBZ — 64-bit"] }
          else { i with kind := i.kind ++ ["CBZ — 32-bit"] }
        else
          if sf = 1 then { i with kind := i.kind ++ ["CBNZ — 64-bit"] }
          else { i with kind := i.kind ++ ["CBNZ — 32-bit"] }
      { i with label := some (SignExtend imm19 19 * 4) }
    else
      let i := { i with
                 kind := i.kind ++ ["Test and branch (immediate)"]
                 numSourceRegisters := 1
                 Rs := i.Rs.set 0 (bits code 4 0 : Int) }
      let b5 := bits code 31 31
      let op := bits code 24 24
      let b40 := bits code 23 19
      let imm14 := bits code 18 5
      let i := { i with
                 imm := some (((b5 <<< 4) ||| b40 : Nat) : Int)
                 branchType := .DIR
                 label := some ((pc : Int) + SignExtend imm14 14 * 4) }
      { i with kind := i.kind ++ [if op = 1 then "TBNZ" else "TBZ"] }
  else i

/-- Decoder for the Loads and Stores family
(`instruction-parsing.cpp` lines 767-1004). -/
def decodeLoadsAndStores (code : Nat) (i0 : Instruction) : Instruction :=
  let i := { i0 with kind := [ldSt] }
  let op0 := bits code 31 28
  let V := bits code 26 26
  let op2 := bits code 24 23
  let op3 := bits code 21 16
  let op4 := bits code 11 10
  if op0 &&& 3 = 3 then
    let size := bits code 31 30
    let opc := bits code 23 22
    let Rt := bits code 4 0
    let Rn := bits code 9 5
    let inner : Instruction × Bool :=
      if op2 ||| 1 = 3 then
        let imm12 := bits code 21 10
        ({ i with
           kind := i.kind ++ ["Load/store register (unsigned immediate)"]
           imm := some (ZeroExtend imm12 12 * 2 ^ size)
           wback := false
           postindex := false }, true)
      else if op3 &&& 32 = 0 then
        let imm9 := bits code 20 12
        let i := { i with imm := some (SignExtend imm9 9) }
        if op4 = 3 then
          ({ i with
             kind := i.kind ++ ["Load/store register (immediate pre-indexed)"]
             wback := true
             postindex := false }, true)
        else if op4 = 1 then
          ({ i with
             kind := i.kind ++ ["Load/store register (immediate post-indexed)"]
             wback := true
             postindex := true }, true)
        else (i, false)
      else
        if op4 = 2 then
          let Rm := bits code 20 16
          let i := { i with
                     kind := i.kind ++ ["Load/store register (register offset)"]
                     numSourceRegisters := 2
                     Rs := i.Rs.set 1 (Rm : Int)
                     extendType := (bits code 15 13 : Int) }
          let S := bits code 12 12
          let shifted := bits code 15 13 = 3
          let i := if shifted then { i with shiftType := 0 } else i
          let i := { i with imm := some (if S = 1 then (size : Int) else 0) }
          if bits code 15 13 &&& 2 = 0 ∨ (size &&& 1 = 1 ∧ V = 1 ∧ opc &&& 2 ≠ 0) then
            ({ i with kind := i.kind ++ [unalloc] }, false)
          else if V = 0 then
            if opc = 0 then
              let i := { i with
                         Rs := i.Rs.set 0 (Rt : Int)
                         Rs0CanBeSP := false
                         Rd := (Rn : Int)
                         RdCanBeSP := true }
              if size = 3 then ({ i with kind := i.kind ++ ["STR (register) — 64-bit"] }, false)
              else if size = 2 then ({ i with kind := i.kind ++ ["STR (register) — 32-bit"] }, false)
              else if size = 1 then ({ i with kind := i.kind ++ ["STRH (register)"] }, false)
              else if shifted then
                ({ i with kind := i.kind ++ ["STRB (register) — shifted register"] }, false)
              else ({ i with kind := i.kind ++ ["STRB (register) — extended register"] }, false)
            else
              let i := { i with
                         Rs := i.Rs.set 0 (Rn : Int)
                         Rs0CanBeSP := true
                         Rd := (Rt : Int)
                         RdCanBeSP := false }
              if opc = 1 then
                if size = 3 then ({ i with kind := i.kind ++ ["LDR (register) — 64-bit"] }, false)
                else if size = 2 then ({ i with kind := i.kind ++ ["LDR (register) — 32-bit"] }, false)
                else if size = 1 then ({ i with kind := i.kind ++ ["LDRH (register)"] }, false)
                else if shifted then
                  ({ i with kind := i.kind ++ ["LDRB (register) — shifted register"] }, false)
                else ({ i with kind := i.kind ++ ["LDRB (register) — extended register"] }, false)
              else
                let opc64 := opc = 2
                if size = 3 then
                  ({ i with kind := i.kind ++ [if opc64 then "PRFM (register)" else unalloc] }, false)
                else if size = 2 then
                  ({ i with kind := i.kind ++ [if opc64 then "LDRSW (register)" else unalloc] }, false)
                else if size = 1 then
                  ({ i with kind := i.kind ++
                     [if opc64 then "LDRSH (register) — 64-bit" else "LDRSH (register) — 32-bit"] }, false)
                else
                  if opc64 then
                    if shifted then
                      ({ i with kind := i.kind ++ ["LDRSB (register) — 64-bit with shifted register offset"] }, false)
                    else
                      ({ i with kind := i.kind ++ ["LDRSB (register) — 64-bit with extended register offset"] }, false)
                  else
                    if shifted then
                      ({ i with kind := i.kind ++ ["LDRSB (register) — 32-bit with shifted register offset"] }, false)
                    else
                      ({ i with kind := i.kind ++ ["LDRSB (register) — 32-bit with extended register offset"] }, false)
          else (i, false)
        else (i, false)
    let i := inner.1
    if inner.2 then
      let i := { i with numSourceRegisters := 1 }
      if V = 0 then
        if opc = 0 then
          let i := { i with
                     Rs := i.Rs.set 0 (Rt : Int)
                     Rs0CanBeSP := false
                     Rd := (Rn : Int)
                     RdCanBeSP := true }
          if size = 3 then { i with kind := i.kind ++ ["STR (immediate) — 64-bit"] }
          else if size = 2 then { i with kind := i.kind ++ ["STR (immediate) — 32-bit"] }
          else if size = 1 then { i with kind := i.kind ++ ["STRH (immediate)"] }
          else { i with kind := i.kind ++ ["STRB (immediate)"] }
        else
          let i := { i with
                     Rs := i.Rs.set 0 (Rn : Int)
                     Rs0CanBeSP := true
                     Rd := (Rt : Int)
                     RdCanBeSP := false }
          if opc = 1 then
            if size = 3 then { i with kind := i.kind ++ ["LDR (immediate) — 64-bit"] }
            else if size = 2 then { i with kind := i.kind ++ ["LDR (immediate) — 32-bit"] }
            else if size = 1 then { i with kind := i.kind ++ ["LDRH (immediate)"] }
            else { i with kind := i.kind ++ ["LDRB (immediate)"] }
          else
            let opc64 := opc = 2
            if size = 3 then { i with kind := i.kind ++ [if opc64 then "PRFM (immediate)" else unalloc] }
            else if size = 2 then { i with kind := i.kind ++ [if opc64 then "LDRSW (immediate)" else unalloc] }
            else if size = 1 then
              { i with kind := i.kind ++
                [if opc64 then "LDRSH (immediate) — 64-bit" else "LDRSH (immediate) — 32-bit"] }
            else
              { i with kind := i.kind ++
                [if opc64 then "LDRSB (immediate) — 64-bit" else "LDRSB (immediate) — 32-bit"] }
      else i
    else i
  else if op0 &&& 3 = 2 then
    let opc := bits code 31 30
    let L := bits code 22 22
    let Rt := bits code 4 0
    let Rn := bits code 9 5
    let Rt2 := bits code 14 10
    if op2 = 0 then
      { i with kind := i.kind ++ ["Load/store no-allocate pair (offset)"] }
    else
      let i :=
        if op2 = 1 then
          { i with
            kind := i.kind ++ ["Load/store register pair (post-indexed)"]
            wback := true
            postindex := true }
        else if op2 = 2 then
          { i with
            kind := i.kind ++ ["Load/store register pair (offset)"]
            wback := false
            postindex := false }
        else
          { i with
            kind := i.kind ++ ["Load/store register pair (pre-indexed)"]
            wback := true
            postindex := false }
      if opc = 3 then { i with kind := i.kind ++ [unalloc] }
      else if V = 0 ∧ L = 0 then
        let i := { i with
                   numSourceRegisters := 2
                   Rs := (i.Rs.set 0 (Rt : Int)).set 1 (Rt2 : Int)
                   Rs0CanBeSP := true
                   Rd := (Rn : Int)
                   RdCanBeSP := true }
        if opc = 0 then { i with kind := i.kind ++ ["STP — 32-bit"] }
        else if opc = 1 then { i with kind := i.kind ++ ["STGP"] }
        else { i with kind := i.kind ++ ["STP — 64-bit"] }
      else if V = 0 ∧ L = 1 then
        let i := { i with
                   numSourceRegisters := 1
                   Rs := i.Rs.set 0 (Rn : Int)
                   Rs0CanBeSP := true
                   Rd := (Rt : Int)
                   RdCanBeSP := false
                   Rd2 := (Rt2 : Int) }
        if opc = 0 then { i with kind := i.kind ++ ["LDP — 32-bit"] }
        else if opc = 1 then { i with kind := i.kind ++ ["LDPSW"] }
        else { i with kind := i.kind ++ ["LDP — 64-bit"] }
      else i
  else i

/-- Epilogue of the `Instruction` constructor
(`instruction-parsing.cpp` lines 1010-1017): the record is fully parsed
exactly when all `kindSize` classification levels were filled, and a
fully parsed record whose final label is the `unalloc` marker is
invalid. -/
def finishParse (i : Instruction) : Instruction :=
  if i.kind.length = kindSize then
    { i with
      parsed := true
      valid := if i.kind.getLast? = some unalloc then false else i.valid }
  else i

/-- The `Instruction` constructor (`instruction-parsing.cpp` lines
184-1018) for a 4-byte code word `code` located at address `pc`,
dispatching on the top-level `op0` field (bits 28-25).  The
environment's `getBase` lookup is assumed to succeed (its failure path
only logs and leaves the record unparsed).  The constructor assigns
`addr` once on entry and no later statement modifies it; the embedding
re-asserts that assignment on the final record so the invariant is
syntactic. -/
def decode (code pc : Nat) : Instruction :=
  let i0 : Instruction := { addr := pc }
  let top0 := bits code 28 25
  { finishParse
    (if top0 ≤ 3 then
      { i0 with kind := List.replicate kindSize "Invalid instruction", valid := false }
    else if top0 &&& 7 = 5 then decodeDataProcessingRegister code i0
    else if top0 &&& 7 = 7 then
      { i0 with kind := ["Data Processing -- Scalar Floating-Point and Advanced SIMD"] }
    else if top0 ||| 1 = 9 then decodeDataProcessingImmediate code pc i0
    else if top0 ||| 1 = 11 then decodeBranches code pc i0
    else if top0 &&& 5 = 4 then decodeLoadsAndStores code i0
    else
      { i0 with
        kind := ["ERROR: Our top-level bit patterns have a gap!"]
        valid := false }) with
    addr := pc }

/-- `Instruction::isPcRelAdr` (`instruction-parsing.cpp` line 138):
second-level kind equals the `pcRelAddr` marker. -/
def Instruction.isPcRelAdr (i : Instruction) : Bool :=
  i.kind.getD 1 "" == pcRelAddr

/-- `Instruction::isAddOrSubImm` (`instruction-parsing.cpp` line 142). -/
def Instruction.isAddOrSubImm (i : Instruction) : Bool :=
  i.kind.getD 1 "" == addSubImm

/-- `Instruction::isLoadOrStore` (`instruction-parsing.cpp` line 146). -/
def Instruction.isLoadOrStore (i : Instruction) : Bool :=
  i.kind.getD 0 "" == ldSt

/-- `Instruction::isLoad` (`instruction-parsing.cpp` line 149):
`strncmp(kind[2], "LD", 2) == 0` on a load/store record. -/
def Instruction.isLoad (i : Instruction) : Bool :=
  i.isLoadOrStore && ((i.kind.getD 2 "").take 2 == "LD")

/-- `Instruction::isStore` (`instruction-parsing.cpp` line 152). -/
def Instruction.isStore (i : Instruction) : Bool :=
  i.isLoadOrStore && ((i.kind.getD 2 "").take 2 == "ST")

/-- `Instruction::hasImmOffsetOnReg` (`instruction-parsing.cpp` lines
156-166). -/
def Instruction.hasImmOffsetOnReg (i : Instruction) (reg : Int) : Bool :=
  if i.imm.isNone then false
  else if !(i.isLoadOrStore || i.isAddOrSubImm) then false
  else if i.isStore then i.Rd == reg || i.Rd2 == reg
  else (List.range i.numSourceRegisters.toNat).any fun k => i.Rs.getD k (-1) == reg

/-- Modelled from the spec: `Instruction::isReturn` (declared in the
missing `utils.h`) - branch classification `return`. -/
def Instruction.isReturn (i : Instruction) : Bool :=
  match i.branchType with
  | .RET => true
  | _ => false

/-- Modelled from the spec: `Instruction::isDirectBranch` (declared in
the missing `utils.h`) - a direct branch or direct call, the forms with
a resolved `label`. -/
def Instruction.isDirectBranch (i : Instruction) : Bool :=
  match i.branchType with
  | .DIR => true
  | .DIRCALL => true
  | _ => false

/-- Modelled from the spec: `Instruction::isCall` (declared in the
missing `utils.h`) - a direct or indirect call. -/
def Instruction.isCall (i : Instruction) : Bool :=
  match i.branchType with
  | .DIRCALL => true
  | .INDCALL => true
  | _ => false

/-- Modelled from the spec: `Instruction::isUnconditionalBranch`
(declared in the missing `utils.h`) - an unconditional direct or
indirect branch, the forms after which the traversal does not populate
a fall-through successor. -/
def Instruction.isUnconditionalBranch (i : Instruction) : Bool :=
  (match i.branchType with
   | .DIR => true
   | .INDIR => true
   | _ => false) && i.cond < 0

/-- `ExtractAddress(instWithResultAdr, instWithImmOffset)` from
`instruction-parsing.cpp` lines 35-43: `RET_0_UNLESS(imm)` propagates
the no-result value 0 when the offset instruction carries no immediate;
otherwise the PC-relative instruction's precomputed `result` plus the
offset instruction's immediate. -/
def ExtractAddress (instWithResultAdr instWithImmOffset : Instruction) : Int :=
  match instWithImmOffset.imm with
  | none => 0
  | some offset => instWithResultAdr.result + offset

/-- `EvalSwitch(switchTable, switchCaseValue)` from
`instruction-parsing.cpp` lines 63-69, restricted to the jump-target
computation (the source then wraps the target in a freshly decoded
`Instruction`).  Memory is modelled as a map from byte addresses to the
32-bit words stored there. -/
def EvalSwitchAddr (mem : Int → Nat) (switchTable : Int) (switchCaseValue : Int) : Int :=
  let stOffset := SignExtend (mem (switchTable + 4 * (switchCaseValue - 1))) 32
  switchTable + stOffset

section FindNth

/-- An externally disassembled instruction as seen by the pattern-scan
engine (`capstone-utils.hpp`): its id reduced to what `findNth`
inspects (whether it is `ARM64_INS_RET`) plus its mnemonic. -/
structure CsInsn where
  isRet : Bool
  mnemonic : String
deriving DecidableEq, Repr

/-- The fatal-abort diagnostics of `findNth` (`capstone-utils.hpp`
lines 40, 56 and 74): each constructor carries exactly the data
interpolated into the corresponding `SAFE_ABORT_MSG` format string. -/
inductive FindNthAbort where
  | retsFirst (nToRetOn : Nat) (addr : Nat) (retCount : Int)
  | skipAtFinal (nToRetOn : Nat) (addr : Nat) (retCount : Int) (mnemonic : String)
  | exhausted (nToRetOn : Nat) (addr : Nat) (retCount : Int) (szBytes : Nat)
deriving DecidableEq, Repr

variable {V : Type}

/-- Loop body of `findNth` (`capstone-utils.hpp` lines 32-71).  The
byte stream is modelled as a map from 4-byte slot indices to the
decode result of `cs_disasm_iter` there (`none` = invalid decode,
silently skipped by a 4-byte step).  Each iteration consumes exactly 4
bytes (the fixed ARM64 instruction width), so the remaining byte budget
is carried as the remaining slot count `n = sz / 4`. -/
def findNthGo (stream : Nat → Option CsInsn) (matchF : CsInsn → Option V)
    (skipF : CsInsn → Bool) (nToRetOn : Nat) (addr : Nat) (retCount : Int)
    (szBytes : Nat) : Nat → Nat → Int → Nat → Except FindNthAbort V
  | _, _, _, 0 => .error (.exhausted nToRetOn addr retCount szBytes)
  | idx, nCalls, rCount, n + 1 =>
    match stream idx with
    | some insn =>
      if insn.isRet then
        if rCount = 0 then .error (.retsFirst nToRetOn addr retCount)
        else findNthGo stream matchF skipF nToRetOn addr retCount szBytes
          (idx + 1) nCalls (rCount - 1) n
      else
        match matchF insn with
        | some v =>
          if nCalls = 1 then .ok v
          else findNthGo stream matchF skipF nToRetOn addr retCount szBytes
            (idx + 1) (nCalls - 1) rCount n
        | none =>
          if skipF insn then
            if nCalls = 1 then .error (.skipAtFinal nToRetOn addr retCount insn.mnemonic)
            else findNthGo stream matchF skipF nToRetOn addr retCount szBytes
              (idx + 1) (nCalls - 1) rCount n
          else findNthGo stream matchF skipF nToRetOn addr retCount szBytes
            (idx + 1) nCalls rCount n
    | none => findNthGo stream matchF skipF nToRetOn addr retCount szBytes
        (idx + 1) nCalls rCount n

/-- `findNth` (`capstone-utils.hpp` lines 22-75): scan forward from
`addr` through `szBytes / 4` slots for the `nToRetOn`-th counted hit,
with a skip predicate and a return-instruction budget `retCount`. -/
def findNth (stream : Nat → Option CsInsn) (matchF : CsInsn → Option V)
    (skipF : CsInsn → Bool) (nToRetOn : Nat) (addr : Nat) (retCount : Int)
    (szBytes : Nat) : Except FindNthAbort V :=
  findNthGo stream matchF skipF nToRetOn addr retCount szBytes 0 nToRetOn retCount (szBytes / 4)

/-- Spec-side observation on the scanned stream: a slot is a counted
hit when it decodes to a non-return instruction that the match
predicate accepts or the skip predicate flags - exactly the slots at
which the scan loop decrements its remaining-match counter. -/
def isCountedHit (matchF : CsInsn → Option V) (skipF : CsInsn → Bool) :
    Option CsInsn → Bool
  | some insn => !insn.isRet && ((matchF insn).isSome || skipF insn)
  | none => false

/-- Number of counted hits among the `k` stream slots
`idx, idx+1, …, idx+k-1`. -/
def countHits (stream : Nat → Option CsInsn) (matchF : CsInsn → Option V)
    (skipF : CsInsn → Bool) : Nat → Nat → Nat
  | _, 0 => 0
  | idx, k + 1 =>
    (if isCountedHit matchF skipF (stream idx) then 1 else 0) +
      countHits stream matchF skipF (idx + 1) k

/-- Number of return instructions among the `k` stream slots
`idx, idx+1, …, idx+k-1`. -/
def countRets (stream : Nat → Option CsInsn) : Nat → Nat → Nat
  | _, 0 => 0
  | idx, k + 1 =>
    (match stream idx with
     | some insn => if insn.isRet then 1 else 0
     | none => 0) +
      countRets stream (idx + 1) k

end FindNth

/-- Modelled from the spec: the dependency map type
(`ParseState::dependencyMap`, declared in the missing `utils.h`): one
bit-set of influencing entry-time registers per register.  Registers
are indexed by `Nat`; the decoder only produces indices below
`depMapSize`. -/
abbrev DepMap : Type := Nat → Finset Nat

/-- `depMap.max_size()`: the number of register slots, 32. -/
def depMapSize : Nat := 32

/-- Modelled from the spec: the all-self-dependency initial map (the
default-constructed `ParseState::dependencyMap` of the missing
`utils.h`, which the spec describes as "an all-self-dependency initial
map"). -/
def initialDepMap : DepMap := fun r => {r}

/-- Source-register collection loop of the single-destination
`ProcessRegisterDependencies` (`instruction-parsing.cpp` lines
1041-1050): accumulate the union of the dependency sets of the first
`n` source registers, aborting (`SAFE_ABORT`, modelled as `none`) when
a source register index is outside `[0, depMapSize)`. -/
def collectDeps (Rs : List Int) (depMap : DepMap) : Nat → Option (Finset Nat)
  | 0 => some ∅
  | n + 1 =>
    (collectDeps Rs depMap n).bind fun acc =>
      let r := Rs.getD n (-1)
      if 0 ≤ r ∧ r < (depMapSize : Int) then some (acc ∪ depMap r.toNat) else none

/-- `ProcessRegisterDependencies(inst, Rd, depMap)`
(`instruction-parsing.cpp` lines 1040-1052): replace `depMap[Rd]` by
the union of the dependency sets of all source registers. -/
def ProcessRegisterDependenciesOne (inst : Instruction) (Rd : Nat) (depMap : DepMap) :
    Option DepMap :=
  (collectDeps inst.Rs depMap inst.numSourceRegisters.toNat).map fun newDeps =>
    Function.update depMap Rd newDeps

/-- `ProcessRegisterDependencies(inst, depMap)`
(`instruction-parsing.cpp` lines 1054-1057): update the first and then
the second destination register, when present. -/
def ProcessRegisterDependencies (inst : Instruction) (depMap : DepMap) : Option DepMap :=
  (if inst.Rd ≥ 0 then ProcessRegisterDependenciesOne inst inst.Rd.toNat depMap
   else some depMap).bind fun m =>
    if inst.Rd2 ≥ 0 then ProcessRegisterDependenciesOne inst inst.Rd2.toNat m
    else some m

/-- An `InstructionTree` node: one decoded instruction plus successor
links, referred to by index into the owning `ParseState`'s node store
(the C++ uses heap pointers owned by the traversal). -/
structure InstructionTree where
  inst : Instruction
  branch : Option Nat := none
  noBranch : Option Nat := none
deriving Repr

/-- `ParseState` (declared in the missing `utils.h`, shapes taken from
its uses in `instruction-parsing.cpp`): the address-to-node memo map,
the LIFO `frontier` worklist of (node, dependency-map snapshot) pairs,
the active dependency map, and the discovered function candidates.
Node identity is the index into `nodes`. -/
structure ParseState where
  nodes : List InstructionTree := []
  codeToInstTree : List (Nat × Nat) := []
  frontier : List (Nat × DepMap) := []
  dependencyMap : DepMap := initialDepMap
  functionCandidates : List (Nat × DepMap) := []

/-- `FindOrCreateInstruction(pc, parseState, msg)`
(`instruction-parsing.cpp` lines 1026-1038): return the memoized node
for `pc` if present; otherwise decode a new node at `pc`, push it onto
the frontier with a copy of the current dependency map, and record it
in the memo map.  Memory is the map from (4-byte-aligned) addresses to
code words. -/
def FindOrCreateInstruction (mem : Nat → Nat) (pc : Nat) (s : ParseState) :
    Nat × ParseState :=
  match (s.codeToInstTree.lookup pc : Option Nat) with
  | some id => (id, s)
  | none =>
    let id := s.nodes.length
    let node : InstructionTree := { inst := decode (mem pc) pc }
    (id, { s with
           nodes := s.nodes ++ [node]
           frontier := (id, s.dependencyMap) :: s.frontier
           codeToInstTree := (pc, id) :: s.codeToInstTree })

/-- `InstructionTree::PopulateChildren(parseState)`
(`instruction-parsing.cpp` lines 1099-1129), acting on the node with
index `id`: stop on unparsed/invalid records and on returns, update the
register dependencies (`none` models `SAFE_ABORT`), then find-or-create
the branch successor (recording call candidates) and, unless the
instruction branches unconditionally, the fall-through successor.
`CRASH_UNLESS(label)` on a direct branch without a label is modelled as
`none`. -/
def PopulateChildren (mem : Nat → Nat) (id : Nat) (s : ParseState) :
    Option ParseState :=
  match s.nodes.get? id with
  | none => none
  | some node =>
    let inst := node.inst
    let pc := inst.addr
    if !(inst.parsed && inst.valid) then some s
    else if inst.isReturn then some s
    else
      (ProcessRegisterDependencies inst s.dependencyMap).bind fun dm =>
        let s := { s with dependencyMap := dm }
        (if inst.isDirectBranch then
          match inst.label with
          | none => none
          | some lbl =>
            let target := lbl.toNat
            let (bid, s1) := FindOrCreateInstruction mem target s
            let s1 := { s1 with
                        nodes := s1.nodes.set id { (s1.nodes.getD id node) with branch := some bid } }
            if inst.isCall then
              some { s1 with functionCandidates := s1.functionCandidates ++ [(target, s1.dependencyMap)] }
            else some s1
         else some s).map fun s2 =>
          if !inst.isUnconditionalBranch then
            let (nid, s3) := FindOrCreateInstruction mem (pc + 4) s2
            { s3 with
              nodes := s3.nodes.set id { (s3.nodes.getD id node) with noBranch := some nid } }
          else s2

/-- The driver loop of `AssemblyFunction::AssemblyFunction`
(`instruction-parsing.cpp` lines 1150-1156) with explicit fuel:
repeatedly pop the most recently pushed (node, snapshot) pair, install
the snapshot as the active dependency map, and expand the node.  The
returned trace lists the expanded node indices in order; `none` means
the fuel ran out or an abort path was reached. -/
def runLoop (mem : Nat → Nat) : Nat → ParseState → List Nat →
    Option (ParseState × List Nat)
  | 0, s, trace => if s.frontier.isEmpty then some (s, trace) else none
  | fuel + 1, s, trace =>
    match s.frontier with
    | [] => some (s, trace)
    | (id, dm) :: rest =>
      let s := { s with frontier := rest, dependencyMap := dm }
      (PopulateChildren mem id s).bind fun s2 => runLoop mem fuel s2 (trace ++ [id])

/-- `AssemblyFunction::AssemblyFunction(pc)` (`instruction-parsing.cpp`
lines 1146-1163): decode a root node at `pc`, push it (with the
initial dependency map) onto the frontier - without recording it in
the memo map - and drain the worklist. -/
def AssemblyFunctionRun (mem : Nat → Nat) (pc : Nat) (fuel : Nat) :
    Option (ParseState × List Nat) :=
  let root : InstructionTree := { inst := decode (mem pc) pc }
  let s0 : ParseState := { nodes := [root], frontier := [(0, initialDepMap)] }
  runLoop mem fuel s0 []

/-- The number of times the traversal expanded a node whose instruction
sits at address `a`: the observation needed to state the
expanded-at-most-once claim. -/
def expansionsAt (s : ParseState) (trace : List Nat) (a : Nat) : Nat :=
  (trace.filter fun id =>
    match s.nodes.get? id with
    | some node => node.inst.addr == a
    | none => false).length

/-- Spec-side reformulation (claim C2): the union of the pre-state
dependency sets of all of the instruction's source registers. -/
def sourceDepsUnion (inst : Instruction) (depMap : DepMap) : Finset Nat :=
  (Finset.range inst.numSourceRegisters.toNat).biUnion fun k =>
    depMap (inst.Rs.getD k (-1)).toNat

/-- Encoding-side description (claim C10): a subtracting
add/subtract-immediate form - SUB, SUBS or the CMP-immediate alias -
i.e. a Data Processing -- Immediate word in the add/subtract class with
`op = 1`. -/
def isSubtractingImmEncoding (code : Nat) : Prop :=
  bits code 28 25 ||| 1 = 9 ∧ bits code 25 24 = 1 ∧ bits code 23 22 ||| 1 ≠ 3 ∧
    bits code 30 30 = 1

instance (code : Nat) : Decidable (isSubtractingImmEncoding code) :=
  inferInstanceAs (Decidable (bits code 28 25 ||| 1 = 9 ∧ bits code 25 24 = 1 ∧
    bits code 23 22 ||| 1 ≠ 3 ∧ bits code 30 30 = 1))

/-- Encoding-side description (claim C8): an ADDS/SUBS-immediate word
whose nominal destination register field is 31, i.e. the CMN/CMP
immediate preferred alias. -/
def isCmpCmnImmediateAliasEncoding (code : Nat) : Prop :=
  bits code 28 25 ||| 1 = 9 ∧ bits code 25 24 = 1 ∧ bits code 23 22 ||| 1 ≠ 3 ∧
    bits code 29 29 = 1 ∧ bits code 4 0 = 31

instance (code : Nat) : Decidable (isCmpCmnImmediateAliasEncoding code) :=
  inferInstanceAs (Decidable (bits code 28 25 ||| 1 = 9 ∧ bits code 25 24 = 1 ∧
    bits code 23 22 ||| 1 ≠ 3 ∧ bits code 29 29 = 1 ∧ bits code 4 0 = 31))

/-- Encoding-side description (claim C8): an allocated
ADDS/SUBS-shifted-register word whose nominal destination register
field is 31, i.e. the CMN/CMP shifted-register preferred alias. -/
def isCmpCmnShiftedRegAliasEncoding (code : Nat) : Prop :=
  bits code 28 25 &&& 7 = 5 ∧ bits code 28 28 = 0 ∧ bits code 24 21 &&& 8 ≠ 0 ∧
    bits code 24 21 &&& 1 = 0 ∧ bits code 29 29 = 1 ∧ bits code 4 0 = 31 ∧
    ¬(bits code 23 22 = 3 ∨ (bits code 31 31 = 0 ∧ bits code 15 10 &&& 32 ≠ 0))

instance (code : Nat) : Decidable (isCmpCmnShiftedRegAliasEncoding code) :=
  inferInstanceAs (Decidable (bits code 28 25 &&& 7 = 5 ∧ bits code 28 28 = 0 ∧
    bits code 24 21 &&& 8 ≠ 0 ∧ bits code 24 21 &&& 1 = 0 ∧ bits code 29 29 = 1 ∧
    bits code 4 0 = 31 ∧
    ¬(bits code 23 22 = 3 ∨ (bits code 31 31 = 0 ∧ bits code 15 10 &&& 32 ≠ 0))))

/-- Encoding-side description (claim C8): an allocated
ADDS/SUBS-extended-register word whose nominal destination register
field is 31, i.e. the CMN/CMP extended-register preferred alias. -/
def isCmpCmnExtendedRegAliasEncoding (code : Nat) : Prop :=
  bits code 28 25 &&& 7 = 5 ∧ bits code 28 28 = 0 ∧ bits code 24 21 &&& 8 ≠ 0 ∧
    bits code 24 21 &&& 1 = 1 ∧ bits code 29 29 = 1 ∧ bits code 4 0 = 31 ∧
    bits code 23 22 = 0 ∧ bits code 12 10 ≤ 4

instance (code : Nat) : Decidable (isCmpCmnExtendedRegAliasEncoding code) :=
  inferInstanceAs (Decidable (bits code 28 25 &&& 7 = 5 ∧ bits code 28 28 = 0 ∧
    bits code 24 21 &&& 8 ≠ 0 ∧ bits code 24 21 &&& 1 = 1 ∧ bits code 29 29 = 1 ∧
    bits code 4 0 = 31 ∧ bits code 23 22 = 0 ∧ bits code 12 10 ≤ 4))

/-- The address stored in a node's decoded instruction record: the
observation by which the decoded/expanded-at-most-once property is
stated. -/
def addrOf (s : ParseState) (id : Nat) : Option Nat :=
  (s.nodes.get? id).map fun n => n.inst.addr

/-- The traversal invariant: the worklist and the expanded trace hold
each node index at most once, the memo map has distinct address keys,
every memo entry points at a node decoded at its key address, every
node except the root is registered in the memo map, and the root node
sits at the entry address. -/
structure TraversalInv (s : ParseState) (trace : List Nat) (entry : Nat) : Prop where
  nodup : ((s.frontier.map Prod.fst) ++ trace).Nodup
  bounded : ∀ id ∈ s.frontier.map Prod.fst ++ trace, id < s.nodes.length
  memoKeysNodup : (s.codeToInstTree.map Prod.fst).Nodup
  memoSound : ∀ p ∈ s.codeToInstTree, addrOf s p.2 = some p.1
  memoComplete : ∀ id, id < s.nodes.length → id ≠ 0 → ∃ a, (a, id) ∈ s.codeToInstTree
  rootAddr : addrOf s 0 = some entry

/-! ## Theorems settling the claims -/

/-- Every extracted bit field is bounded by its width. -/
theorem bits_lt (code hi lo : Nat) : bits code hi lo < 2 ^ (hi - lo + 1) :=
  Nat.mod_lt _ (Nat.pos_pow_of_pos _ (by norm_num))

/-- Dispatch: a word whose top-level op0 field is `100x` decodes
through the Data Processing -- Immediate family. -/
theorem decode_eq_dpimm (code pc : Nat) (h : bits code 28 25 ||| 1 = 9) :
    decode code pc =
      { finishParse (decodeDataProcessingImmediate code pc { addr := pc }) with addr := pc } := by
  simp only [decode]
  have ht : bits code 28 25 < 16 := bits_lt code 28 25
  set t := bits code 28 25 with htdef
  interval_cases t <;> first
    | exact absurd h (by decide)
    | rw [if_neg (by decide), if_neg (by decide), if_neg (by decide), if_pos (by decide)]

/-- Dispatch: a word whose top-level op0 field is `x101` decodes
through the Data Processing -- Register family. -/
theorem decode_eq_dpreg (code pc : Nat) (h : bits code 28 25 &&& 7 = 5) :
    decode code pc =
      { finishParse (decodeDataProcessingRegister code { addr := pc }) with addr := pc } := by
  simp only [decode]
  have ht : bits code 28 25 < 16 := bits_lt code 28 25
  set t := bits code 28 25 with htdef
  interval_cases t <;> first
    | exact absurd h (by decide)
    | rw [if_neg (by decide), if_pos (by decide)]

/-- The source-collection loop returns the union of the dependency
sets of the first `n` source registers when they are all in range. -/
theorem collectDeps_eq (Rs : List Int) (depMap : DepMap) (n : Nat)
    (h : ∀ k < n, 0 ≤ Rs.getD k (-1) ∧ Rs.getD k (-1) < (depMapSize : Int)) :
    collectDeps Rs depMap n =
      some ((Finset.range n).biUnion fun k => depMap ((Rs.getD k (-1)).toNat)) := by
  induction n with
  | zero => simp [collectDeps]
  | succ n ih =>
    have hn := h n (Nat.lt_succ_self n)
    rw [collectDeps, ih (fun k hk => h k (Nat.lt_succ_of_lt hk))]
    rw [Finset.range_succ, Finset.biUnion_insert]
    simp only [Option.bind]
    rw [if_pos hn]
    rw [Finset.union_comm]

/-- Writing the source-union into any destination slot does not change
the source-union: the key fact behind the second destination of a
paired load receiving the same union as the first. -/
theorem sourceDepsUnion_update_self (inst : Instruction) (depMap : DepMap) (d : Nat) :
    sourceDepsUnion inst (Function.update depMap d (sourceDepsUnion inst depMap)) =
      sourceDepsUnion inst depMap := by
  apply subset_antisymm
  · intro x hx
    rw [sourceDepsUnion, Finset.mem_biUnion] at hx
    obtain ⟨k, hk, hxk⟩ := hx
    by_cases hd : (inst.Rs.getD k (-1)).toNat = d
    · rw [hd, Function.update_same] at hxk
      exact hxk
    · rw [Function.update_noteq hd] at hxk
      exact Finset.mem_biUnion.mpr ⟨k, hk, hxk⟩
  · intro x hx
    rw [sourceDepsUnion, Finset.mem_biUnion] at hx
    rw [sourceDepsUnion, Finset.mem_biUnion]
    obtain ⟨k, hk, hxk⟩ := hx
    refine ⟨k, hk, ?_⟩
    by_cases hd : (inst.Rs.getD k (-1)).toNat = d
    · rw [hd, Function.update_same]
      exact Finset.mem_biUnion.mpr ⟨k, hk, hxk⟩
    · rw [Function.update_noteq hd]
      exact hxk

/-- The single-destination dependency update replaces exactly the
destination's set with the source-union. -/
theorem ProcessRegisterDependenciesOne_eq (inst : Instruction) (Rd : Nat) (depMap : DepMap)
    (h : ∀ k < inst.numSourceRegisters.toNat,
      0 ≤ inst.Rs.getD k (-1) ∧ inst.Rs.getD k (-1) < (depMapSize : Int)) :
    ProcessRegisterDependenciesOne inst Rd depMap =
      some (Function.update depMap Rd (sourceDepsUnion inst depMap)) := by
  rw [ProcessRegisterDependenciesOne, collectDeps_eq inst.Rs depMap _ h]
  rfl

/-- A normal return of the scan loop carries the value of the final
counted hit: a slot inside the remaining window holding a non-return
instruction accepted by the match predicate, preceded by exactly
`nCalls - 1` counted hits (so the remaining-match counter reaches its
final decrement there) and by no more return instructions than the
remaining return budget allows. -/
theorem findNthGo_ok_final {V : Type} (stream : Nat → Option CsInsn)
    (matchF : CsInsn → Option V) (skipF : CsInsn → Bool) (nToRetOn : Nat) (addr : Nat)
    (retCount : Int) (szBytes : Nat) :
    ∀ (n idx : Nat) (nCalls : Nat) (rCount : Int) (v : V),
      findNthGo stream matchF skipF nToRetOn addr retCount szBytes idx nCalls rCount n =
        .ok v →
      ∃ k insn, k < n ∧ stream (idx + k) = some insn ∧ insn.isRet = false ∧
        matchF insn = some v ∧
        countHits stream matchF skipF idx k + 1 = nCalls ∧
        (rCount < 0 ∨ (countRets stream idx k : Int) ≤ rCount) := by
  intro n
  induction n with
  | zero =>
    intro idx nCalls rCount v hrun
    exact absurd hrun (by simp [findNthGo])
  | succ n ih =>
    intro idx nCalls rCount v hrun
    rcases hs : stream idx with _ | insn
    · simp only [findNthGo, hs] at hrun
      obtain ⟨k, insn2, hk, h2, h3, h4, h5, h6⟩ := ih (idx + 1) nCalls rCount v hrun
      have hch : countHits stream matchF skipF idx (k + 1) =
          countHits stream matchF skipF (idx + 1) k := by
        simp [countHits, isCountedHit, hs]
      have hcr : countRets stream idx (k + 1) = countRets stream (idx + 1) k := by
        simp [countRets, hs]
      refine ⟨k + 1, insn2, by omega, ?_, h3, h4, by omega, ?_⟩
      · have he : idx + (k + 1) = (idx + 1) + k := by omega
        rw [he]
        exact h2
      · rw [hcr]
        exact h6
    · rcases hret : insn.isRet with _ | _
      · rcases hm : matchF insn with _ | w
        · rcases hskip : skipF insn with _ | _
          · simp only [findNthGo, hs, hret, hm, hskip, Bool.false_eq_true, if_false] at hrun
            obtain ⟨k, insn2, hk, h2, h3, h4, h5, h6⟩ := ih (idx + 1) nCalls rCount v hrun
            have hch : countHits stream matchF skipF idx (k + 1) =
                countHits stream matchF skipF (idx + 1) k := by
              simp [countHits, isCountedHit, hs, hret, hm, hskip]
            have hcr : countRets stream idx (k + 1) = countRets stream (idx + 1) k := by
              simp [countRets, hs, hret]
            refine ⟨k + 1, insn2, by omega, ?_, h3, h4, by omega, ?_⟩
            · have he : idx + (k + 1) = (idx + 1) + k := by omega
              rw [he]
              exact h2
            · rw [hcr]
              exact h6
          · simp only [findNthGo, hs, hret, hm, hskip, Bool.false_eq_true, if_false,
              if_true] at hrun
            split at hrun
            · exact absurd hrun (by simp)
            · rename_i hn1
              obtain ⟨k, insn2, hk, h2, h3, h4, h5, h6⟩ :=
                ih (idx + 1) (nCalls - 1) rCount v hrun
              have hch : countHits stream matchF skipF idx (k + 1) =
                  1 + countHits stream matchF skipF (idx + 1) k := by
                simp [countHits, isCountedHit, hs, hret, hm, hskip]
              have hcr : countRets stream idx (k + 1) = countRets stream (idx + 1) k := by
                simp [countRets, hs, hret]
              refine ⟨k + 1, insn2, by omega, ?_, h3, h4, by omega, ?_⟩
              · have he : idx + (k + 1) = (idx + 1) + k := by omega
                rw [he]
                exact h2
              · rw [hcr]
                exact h6
        · simp only [findNthGo, hs, hret, hm, Bool.false_eq_true, if_false] at hrun
          split at hrun
          · rename_i hn1
            simp only [Except.ok.injEq] at hrun
            refine ⟨0, insn, by omega, by simpa using hs, hret, by rw [hm, hrun], ?_, ?_⟩
            · simp only [countHits]
              omega
            · simp only [countRets, Nat.cast_zero]
              omega
          · rename_i hn1
            obtain ⟨k, insn2, hk, h2, h3, h4, h5, h6⟩ :=
              ih (idx + 1) (nCalls - 1) rCount v hrun
            have hch : countHits stream matchF skipF idx (k + 1) =
                1 + countHits stream matchF skipF (idx + 1) k := by
              simp [countHits, isCountedHit, hs, hret, hm]
            have hcr : countRets stream idx (k + 1) = countRets stream (idx + 1) k := by
              simp [countRets, hs, hret]
            refine ⟨k + 1, insn2, by omega, ?_, h3, h4, by omega, ?_⟩
            · have he : idx + (k + 1) = (idx + 1) + k := by omega
              rw [he]
              exact h2
            · rw [hcr]
              exact h6
      · simp only [findNthGo, hs, hret, if_true] at hrun
        split at hrun
        · exact absurd hrun (by simp)
        · rename_i hrc
          obtain ⟨k, insn2, hk, h2, h3, h4, h5, h6⟩ := ih (idx + 1) nCalls (rCount - 1) v hrun
          have hch : countHits stream matchF skipF idx (k + 1) =
              countHits stream matchF skipF (idx + 1) k := by
            simp [countHits, isCountedHit, hs, hret]
          have hcr : countRets stream idx (k + 1) = 1 + countRets stream (idx + 1) k := by
            simp [countRets, hs, hret]
          refine ⟨k + 1, insn2, by omega, ?_, h3, h4, by omega, ?_⟩
          · have he : idx + (k + 1) = (idx + 1) + k := by omega
            rw [he]
            exact h2
          · rw [hcr]
            push_cast
            omega

/-- Converse of `findNthGo_ok_final`: whenever the remaining window
contains a final counted hit that is a match - a non-return slot the
match predicate accepts, preceded by exactly `nCalls - 1` counted hits
and by no return beyond the remaining return budget - the scan loop
returns normally with exactly that slot's associated value. -/
theorem findNthGo_ok_of_final_match {V : Type} (stream : Nat → Option CsInsn)
    (matchF : CsInsn → Option V) (skipF : CsInsn → Bool) (nToRetOn : Nat) (addr : Nat)
    (retCount : Int) (szBytes : Nat) :
    ∀ (n idx : Nat) (nCalls : Nat) (rCount : Int) (k : Nat) (insn : CsInsn) (v : V),
      k < n → stream (idx + k) = some insn → insn.isRet = false →
      matchF insn = some v →
      countHits stream matchF skipF idx k + 1 = nCalls →
      (rCount < 0 ∨ (countRets stream idx k : Int) ≤ rCount) →
      findNthGo stream matchF skipF nToRetOn addr retCount szBytes idx nCalls rCount n =
        .ok v := by
  intro n
  induction n with
  | zero =>
    intro idx nCalls rCount k insn v hk _ _ _ _ _
    exact absurd hk (by omega)
  | succ n ih =>
    intro idx nCalls rCount k insn v hk h2 h3 h4 h5 h6
    rcases k with _ | k
    · have hs : stream idx = some insn := by simpa using h2
      have hn1 : nCalls = 1 := by
        simp only [countHits] at h5
        omega
      simp [findNthGo, hs, h3, h4, hn1]
    · have h2' : stream ((idx + 1) + k) = some insn := by
        have he : (idx + 1) + k = idx + (k + 1) := by omega
        rw [he]
        exact h2
      rcases hs : stream idx with _ | insn0
      · have hch : countHits stream matchF skipF idx (k + 1) =
            countHits stream matchF skipF (idx + 1) k := by
          simp [countHits, isCountedHit, hs]
        have hcr : countRets stream idx (k + 1) = countRets stream (idx + 1) k := by
          simp [countRets, hs]
        rw [hcr] at h6
        simp only [findNthGo, hs]
        exact ih (idx + 1) nCalls rCount k insn v (by omega) h2' h3 h4 (by omega) h6
      · rcases hret : insn0.isRet with _ | _
        · rcases hm : matchF insn0 with _ | w
          · rcases hskip : skipF insn0 with _ | _
            · have hch : countHits stream matchF skipF idx (k + 1) =
                  countHits stream matchF skipF (idx + 1) k := by
                simp [countHits, isCountedHit, hs, hret, hm, hskip]
              have hcr : countRets stream idx (k + 1) = countRets stream (idx + 1) k := by
                simp [countRets, hs, hret]
              rw [hcr] at h6
              simp only [findNthGo, hs, hret, hm, hskip, Bool.false_eq_true, if_false]
              exact ih (idx + 1) nCalls rCount k insn v (by omega) h2' h3 h4 (by omega) h6
            · have hch : countHits stream matchF skipF idx (k + 1) =
                  1 + countHits stream matchF skipF (idx + 1) k := by
                simp [countHits, isCountedHit, hs, hret, hm, hskip]
              have hcr : countRets stream idx (k + 1) = countRets stream (idx + 1) k := by
                simp [countRets, hs, hret]
              rw [hcr] at h6
              have hn1 : ¬nCalls = 1 := by omega
              simp only [findNthGo, hs, hret, hm, hskip, Bool.false_eq_true, if_false,
                if_true]
              rw [if_neg hn1]
              exact ih (idx + 1) (nCalls - 1) rCount k insn v (by omega) h2' h3 h4
                (by omega) h6
          · have hch : countHits stream matchF skipF idx (k + 1) =
                1 + countHits stream matchF skipF (idx + 1) k := by
              simp [countHits, isCountedHit, hs, hret, hm]
            have hcr : countRets stream idx (k + 1) = countRets stream (idx + 1) k := by
              simp [countRets, hs, hret]
            rw [hcr] at h6
            have hn1 : ¬nCalls = 1 := by omega
            simp only [findNthGo, hs, hret, hm, Bool.false_eq_true, if_false]
            rw [if_neg hn1]
            exact ih (idx + 1) (nCalls - 1) rCount k insn v (by omega) h2' h3 h4
              (by omega) h6
        · have hch : countHits stream matchF skipF idx (k + 1) =
              countHits stream matchF skipF (idx + 1) k := by
            simp [countHits, isCountedHit, hs, hret]
          have hcr : countRets stream idx (k + 1) = 1 + countRets stream (idx + 1) k := by
            simp [countRets, hs, hret]
          rw [hcr] at h6
          push_cast at h6
          have hrc0 : ¬rCount = 0 := by omega
          simp only [findNthGo, hs, hret, if_true]
          rw [if_neg hrc0]
          exact ih (idx + 1) nCalls (rCount - 1) k insn v (by omega) h2' h3 h4 (by omega)
            (by omega)

/-- When the remaining window holds fewer counted hits than the
remaining-match counter requires and the return instructions inside it
do not overrun the remaining return budget, the scan loop runs off the
end of the window and aborts with the exhaustion diagnostic carrying
the originally requested count, address, return budget and byte
budget. -/
theorem findNthGo_exhausted {V : Type} (stream : Nat → Option CsInsn)
    (matchF : CsInsn → Option V) (skipF : CsInsn → Bool) (nToRetOn : Nat) (addr : Nat)
    (retCount : Int) (szBytes : Nat) :
    ∀ (n idx : Nat) (nCalls : Nat) (rCount : Int),
      countHits stream matchF skipF idx n < nCalls →
      (rCount < 0 ∨ (countRets stream idx n : Int) ≤ rCount) →
      findNthGo stream matchF skipF nToRetOn addr retCount szBytes idx nCalls rCount n =
        .error (.exhausted nToRetOn addr retCount szBytes) := by
  intro n
  induction n with
  | zero =>
    intro idx nCalls rCount h5 h6
    simp [findNthGo]
  | succ n ih =>
    intro idx nCalls rCount h5 h6
    rcases hs : stream idx with _ | insn
    · have hch : countHits stream matchF skipF idx (n + 1) =
          countHits stream matchF skipF (idx + 1) n := by
        simp [countHits, isCountedHit, hs]
      have hcr : countRets stream idx (n + 1) = countRets stream (idx + 1) n := by
        simp [countRets, hs]
      rw [hcr] at h6
      simp only [findNthGo, hs]
      exact ih (idx + 1) nCalls rCount (by omega) h6
    · rcases hret : insn.isRet with _ | _
      · rcases hm : matchF insn with _ | w
        · rcases hskip : skipF insn with _ | _
          · have hch : countHits stream matchF skipF idx (n + 1) =
                countHits stream matchF skipF (idx + 1) n := by
              simp [countHits, isCountedHit, hs, hret, hm, hskip]
            have hcr : countRets stream idx (n + 1) = countRets stream (idx + 1) n := by
              simp [countRets, hs, hret]
            rw [hcr] at h6
            simp only [findNthGo, hs, hret, hm, hskip, Bool.false_eq_true, if_false]
            exact ih (idx + 1) nCalls rCount (by omega) h6
          · have hch : countHits stream matchF skipF idx (n + 1) =
                1 + countHits stream matchF skipF (idx + 1) n := by
              simp [countHits, isCountedHit, hs, hret, hm, hskip]
            have hcr : countRets stream idx (n + 1) = countRets stream (idx + 1) n := by
              simp [countRets, hs, hret]
            rw [hcr] at h6
            have hn1 : ¬nCalls = 1 := by omega
            simp only [findNthGo, hs, hret, hm, hskip, Bool.false_eq_true, if_false,
              if_true]
            rw [if_neg hn1]
            exact ih (idx + 1) (nCalls - 1) rCount (by omega) h6
        · have hch : countHits stream matchF skipF idx (n + 1) =
              1 + countHits stream matchF skipF (idx + 1) n := by
            simp [countHits, isCountedHit, hs, hret, hm]
          have hcr : countRets stream idx (n + 1) = countRets stream (idx + 1) n := by
            simp [countRets, hs, hret]
          rw [hcr] at h6
          have hn1 : ¬nCalls = 1 := by omega
          simp only [findNthGo, hs, hret, hm, Bool.false_eq_true, if_false]
          rw [if_neg hn1]
          exact ih (idx + 1) (nCalls - 1) rCount (by omega) h6
      · have hch : countHits stream matchF skipF idx (n + 1) =
            countHits stream matchF skipF (idx + 1) n := by
          simp [countHits, isCountedHit, hs, hret]
        have hcr : countRets stream idx (n + 1) = 1 + countRets stream (idx + 1) n := by
          simp [countRets, hs, hret]
        rw [hcr] at h6
        push_cast at h6
        have hrc0 : ¬rCount = 0 := by omega
        simp only [findNthGo, hs, hret, if_true]
        rw [if_neg hrc0]
        exact ih (idx + 1) nCalls (rCount - 1) (by omega) (by omega)

/-- When the remaining window holds a return instruction that the
remaining return budget has just reached (exactly `rCount` returns
precede it) before the scan can terminate (fewer counted hits precede
it than the remaining-match counter requires), the scan loop aborts at
that return with the rets-first diagnostic. -/
theorem findNthGo_retsFirst {V : Type} (stream : Nat → Option CsInsn)
    (matchF : CsInsn → Option V) (skipF : CsInsn → Bool) (nToRetOn : Nat) (addr : Nat)
    (retCount : Int) (szBytes : Nat) :
    ∀ (n idx : Nat) (nCalls : Nat) (rCount : Int) (k : Nat) (insn : CsInsn),
      k < n → stream (idx + k) = some insn → insn.isRet = true →
      (countRets stream idx k : Int) = rCount →
      countHits stream matchF skipF idx k < nCalls →
      findNthGo stream matchF skipF nToRetOn addr retCount szBytes idx nCalls rCount n =
        .error (.retsFirst nToRetOn addr retCount) := by
  intro n
  induction n with
  | zero =>
    intro idx nCalls rCount k insn hk _ _ _ _
    exact absurd hk (by omega)
  | succ n ih =>
    intro idx nCalls rCount k insn hk h2 h3 h4 h5
    rcases k with _ | k
    · have hs : stream idx = some insn := by simpa using h2
      have hr0 : rCount = 0 := by
        simp only [countRets, Nat.cast_zero] at h4
        omega
      simp [findNthGo, hs, h3, hr0]
    · have h2' : stream ((idx + 1) + k) = some insn := by
        have he : (idx + 1) + k = idx + (k + 1) := by omega
        rw [he]
        exact h2
      rcases hs : stream idx with _ | insn0
      · have hch : countHits stream matchF skipF idx (k + 1) =
            countHits stream matchF skipF (idx + 1) k := by
          simp [countHits, isCountedHit, hs]
        have hcr : countRets stream idx (k + 1) = countRets stream (idx + 1) k := by
          simp [countRets, hs]
        rw [hcr] at h4
        simp only [findNthGo, hs]
        exact ih (idx + 1) nCalls rCount k insn (by omega) h2' h3 h4 (by omega)
      · rcases hret : insn0.isRet with _ | _
        · rcases hm : matchF insn0 with _ | w
          · rcases hskip : skipF insn0 with _ | _
            · have hch : countHits stream matchF skipF idx (k + 1) =
                  countHits stream matchF skipF (idx + 1) k := by
                simp [countHits, isCountedHit, hs, hret, hm, hskip]
              have hcr : countRets stream idx (k + 1) = countRets stream (idx + 1) k := by
                simp [countRets, hs, hret]
              rw [hcr] at h4
              simp only [findNthGo, hs, hret, hm, hskip, Bool.false_eq_true, if_false]
              exact ih (idx + 1) nCalls rCount k insn (by omega) h2' h3 h4 (by omega)
            · have hch : countHits stream matchF skipF idx (k + 1) =
                  1 + countHits stream matchF skipF (idx + 1) k := by
                simp [countHits, isCountedHit, hs, hret, hm, hskip]
              have hcr : countRets stream idx (k + 1) = countRets stream (idx + 1) k := by
                simp [countRets, hs, hret]
              rw [hcr] at h4
              have hn1 : ¬nCalls = 1 := by omega
              simp only [findNthGo, hs, hret, hm, hskip, Bool.false_eq_true, if_false,
                if_true]
              rw [if_neg hn1]
              exact ih (idx + 1) (nCalls - 1) rCount k insn (by omega) h2' h3 h4 (by omega)
          · have hch : countHits stream matchF skipF idx (k + 1) =
                1 + countHits stream matchF skipF (idx + 1) k := by
              simp [countHits, isCountedHit, hs, hret, hm]
            have hcr : countRets stream idx (k + 1) = countRets stream (idx + 1) k := by
              simp [countRets, hs, hret]
            rw [hcr] at h4
            have hn1 : ¬nCalls = 1 := by omega
            simp only [findNthGo, hs, hret, hm, Bool.false_eq_true, if_false]
            rw [if_neg hn1]
            exact ih (idx + 1) (nCalls - 1) rCount k insn (by omega) h2' h3 h4 (by omega)
        · have hch : countHits stream matchF skipF idx (k + 1) =
              countHits stream matchF skipF (idx + 1) k := by
            simp [countHits, isCountedHit, hs, hret]
          have hcr : countRets stream idx (k + 1) = 1 + countRets stream (idx + 1) k := by
            simp [countRets, hs, hret]
          rw [hcr] at h4
          push_cast at h4
          have hrc0 : ¬rCount = 0 := by omega
          simp only [findNthGo, hs, hret, if_true]
          rw [if_neg hrc0]
          exact ih (idx + 1) nCalls (rCount - 1) k insn (by omega) h2' h3 (by omega)
            (by omega)

/-- When the final counted hit of the remaining window - a non-return
slot preceded by exactly `nCalls - 1` counted hits and by no return
beyond the remaining return budget - is rejected by the match predicate
but flagged by the skip predicate, the scan loop aborts there with the
skip diagnostic naming that instruction's mnemonic. -/
theorem findNthGo_skipAtFinal {V : Type} (stream : Nat → Option CsInsn)
    (matchF : CsInsn → Option V) (skipF : CsInsn → Bool) (nToRetOn : Nat) (addr : Nat)
    (retCount : Int) (szBytes : Nat) :
    ∀ (n idx : Nat) (nCalls : Nat) (rCount : Int) (k : Nat) (insn : CsInsn),
      k < n → stream (idx + k) = some insn → insn.isRet = false →
      matchF insn = none → skipF insn = true →
      countHits stream matchF skipF idx k + 1 = nCalls →
      (rCount < 0 ∨ (countRets stream idx k : Int) ≤ rCount) →
      findNthGo stream matchF skipF nToRetOn addr retCount szBytes idx nCalls rCount n =
        .error (.skipAtFinal nToRetOn addr retCount insn.mnemonic) := by
  intro n
  induction n with
  | zero =>
    intro idx nCalls rCount k insn hk _ _ _ _ _ _
    exact absurd hk (by omega)
  | succ n ih =>
    intro idx nCalls rCount k insn hk h2 h3 h4 hsk h5 h6
    rcases k with _ | k
    · have hs : stream idx = some insn := by simpa using h2
      have hn1 : nCalls = 1 := by
        simp only [countHits] at h5
        omega
      simp [findNthGo, hs, h3, h4, hsk, hn1]
    · have h2' : stream ((idx + 1) + k) = some insn := by
        have he : (idx + 1) + k = idx + (k + 1) := by omega
        rw [he]
        exact h2
      rcases hs : stream idx with _ | insn0
      · have hch : countHits stream matchF skipF idx (k + 1) =
            countHits stream matchF skipF (idx + 1) k := by
          simp [countHits, isCountedHit, hs]
        have hcr : countRets stream idx (k + 1) = countRets stream (idx + 1) k := by
          simp [countRets, hs]
        rw [hcr] at h6
        simp only [findNthGo, hs]
        exact ih (idx + 1) nCalls rCount k insn (by omega) h2' h3 h4 hsk (by omega) h6
      · rcases hret : insn0.isRet with _ | _
        · rcases hm : matchF insn0 with _ | w
          · rcases hskip : skipF insn0 with _ | _
            · have hch : countHits stream matchF skipF idx (k + 1) =
                  countHits stream matchF skipF (idx + 1) k := by
                simp [countHits, isCountedHit, hs, hret, hm, hskip]
              have hcr : countRets stream idx (k + 1) = countRets stream (idx + 1) k := by
                simp [countRets, hs, hret]
              rw [hcr] at h6
              simp only [findNthGo, hs, hret, hm, hskip, Bool.false_eq_true, if_false]
              exact ih (idx + 1) nCalls rCount k insn (by omega) h2' h3 h4 hsk (by omega) h6
            · have hch : countHits stream matchF skipF idx (k + 1) =
                  1 + countHits stream matchF skipF (idx + 1) k := by
                simp [countHits, isCountedHit, hs, hret, hm, hskip]
              have hcr : countRets stream idx (k + 1) = countRets stream (idx + 1) k := by
                simp [countRets, hs, hret]
              rw [hcr] at h6
              have hn1 : ¬nCalls = 1 := by omega
              simp only [findNthGo, hs, hret, hm, hskip, Bool.false_eq_true, if_false,
                if_true]
              rw [if_neg hn1]
              exact ih (idx + 1) (nCalls - 1) rCount k insn (by omega) h2' h3 h4 hsk
                (by omega) h6
          · have hch : countHits stream matchF skipF idx (k + 1) =
                1 + countHits stream matchF skipF (idx + 1) k := by
              simp [countHits, isCountedHit, hs, hret, hm]
            have hcr : countRets stream idx (k + 1) = countRets stream (idx + 1) k := by
              simp [countRets, hs, hret]
            rw [hcr] at h6
            have hn1 : ¬nCalls = 1 := by omega
            simp only [findNthGo, hs, hret, hm, Bool.false_eq_true, if_false]
            rw [if_neg hn1]
            exact ih (idx + 1) (nCalls - 1) rCount k insn (by omega) h2' h3 h4 hsk
              (by omega) h6
        · have hch : countHits stream matchF skipF idx (k + 1) =
              countHits stream matchF skipF (idx + 1) k := by
            simp [countHits, isCountedHit, hs, hret]
          have hcr : countRets stream idx (k + 1) = 1 + countRets stream (idx + 1) k := by
            simp [countRets, hs, hret]
          rw [hcr] at h6
          push_cast at h6
          have hrc0 : ¬rCount = 0 := by omega
          simp only [findNthGo, hs, hret, if_true]
          rw [if_neg hrc0]
          exact ih (idx + 1) nCalls (rCount - 1) k insn (by omega) h2' h3 h4 hsk (by omega)
            (by omega)

/-- In the non-failing case `DecodeBitMasks` builds the rightmost
`S+1` ones, rotates them right by `R = immr` masked to the element
width, and replicates the element to fill `regSize`; proved by
unfolding the definition at the two failure tests. -/
theorem DecodeBitMasks_of_not_fails (N imms immr regSize : Nat)
    (h : ¬decodeBitMasksFails N imms) :
    DecodeBitMasks N imms immr regSize =
      replicatePattern regSize (elementSize N imms)
        (ROR ((1 <<< ((imms &&& elementLevels N imms) + 1)) - 1)
          (elementSize N imms) (immr &&& elementLevels N imms)) := by
  have h1 : ¬elementLen N imms < 1 := fun hc => h (Or.inl hc)
  have h2 : ¬imms &&& elementLevels N imms = elementLevels N imms := fun hc => h (Or.inr hc)
  simp only [elementLen] at h1
  simp only [elementLevels, elementSize, elementLen] at h2
  simp only [DecodeBitMasks, elementLevels, elementSize, elementLen]
  rw [if_neg h1, if_neg h2]

/-- Claim C1: `DecodeBitMasks` returns the all-ones failure sentinel
exactly when the element length computed from the highest set bit of
`(N<<6) | ~imms` (truncated to 6 bits) is less than 1 or when `imms`
masked to the element width is all ones; in every other case it returns
the rightmost `S+1` ones rotated right by `R` within the element and
replicated to fill `regSize`; and `DecodeBitMasks 1 0 0 64 = 1`. -/
theorem claim_C1_decode_bit_masks :
    (∀ N < 2, ∀ imms < 64, ∀ immr < 64,
      (DecodeBitMasks N imms immr 32 = sentinel64 ↔ decodeBitMasksFails N imms) ∧
      (DecodeBitMasks N imms immr 64 = sentinel64 ↔ decodeBitMasksFails N imms)) ∧
    (∀ N imms immr regSize : Nat, ¬decodeBitMasksFails N imms →
      DecodeBitMasks N imms immr regSize =
        replicatePattern regSize (elementSize N imms)
          (ROR ((1 <<< ((imms &&& elementLevels N imms) + 1)) - 1)
            (elementSize N imms) (immr &&& elementLevels N imms))) ∧
    DecodeBitMasks 1 0 0 64 = 1 := by
  refine ⟨?_, fun N imms immr regSize h => DecodeBitMasks_of_not_fails N imms immr regSize h, ?_⟩
  · decide
  · decide

/-- Witness for C1 at the architecture test vector
`N = 1, imms = 0, immr = 0, regSize = 64`. -/
theorem claim_C1_witness :
    (DecodeBitMasks 1 0 0 64 = sentinel64 ↔ decodeBitMasksFails 1 0) ∧
      ¬decodeBitMasksFails 1 0 ∧
      DecodeBitMasks 1 0 0 64 =
        replicatePattern 64 (elementSize 1 0)
          (ROR ((1 <<< ((0 &&& elementLevels 1 0) + 1)) - 1)
            (elementSize 1 0) (0 &&& elementLevels 1 0)) :=
  ⟨(claim_C1_decode_bit_masks.1 1 (by decide) 0 (by decide) 0 (by decide)).2,
   by decide,
   claim_C1_decode_bit_masks.2.1 1 0 0 64 (by decide)⟩

/-- Claim C10: every code word decoding to a subtracting
add/subtract-immediate form (SUB, SUBS or the CMP-immediate alias)
stores in `imm` the negation of the zero-extended 12-bit immediate
shifted left by 12 times the shift field, so consumers that resolve
addresses by adding the stored immediate (such as `ExtractAddress`)
treat ADD-based and SUB-based offsets uniformly. -/
theorem claim_C10_sub_imm_negated :
    ∀ code pc, isSubtractingImmEncoding code →
      (decode code pc).imm =
          some (-(ZeroExtend (bits code 21 10) 12 * 2 ^ (12 * bits code 23 22))) ∧
        ∀ i1 : Instruction, ExtractAddress i1 (decode code pc) =
          i1.result + -(ZeroExtend (bits code 21 10) 12 * 2 ^ (12 * bits code 23 22)) := by
  rintro code pc ⟨h1, h2, h3, h4⟩
  have himm : (decode code pc).imm =
      some (-(ZeroExtend (bits code 21 10) 12 * 2 ^ (12 * bits code 23 22))) := by
    rw [decode_eq_dpimm code pc h1]
    simp only [decodeDataProcessingImmediate]
    simp only [h2, h3, h4, reduceIte]
    have hS : bits code 29 29 < 2 := bits_lt code 29 29
    set s := bits code 29 29 with hsdef
    have hf : bits code 31 31 < 2 := bits_lt code 31 31
    set f := bits code 31 31 with hfdef
    interval_cases s <;> interval_cases f <;>
      by_cases hrd : bits code 4 0 = 31 <;>
      simp [finishParse, hrd, kindSize, RZR]
  exact ⟨himm, fun i1 => by rw [ExtractAddress, himm]⟩

/-- Witness for C10: `SUB x1, x0, #0x20` (word `0xD1008001`) stores
`imm = -0x20`. -/
theorem claim_C10_witness :
    (decode 0xD1008001 0).imm = some (-32) ∧
      ExtractAddress { result := 100 } (decode 0xD1008001 0) = 68 :=
  ⟨((claim_C10_sub_imm_negated 0xD1008001 0 (by decide)).1).trans (by decide),
   ((claim_C10_sub_imm_negated 0xD1008001 0 (by decide)).2 { result := 100 }).trans (by decide)⟩

set_option maxHeartbeats 1600000 in
/-- Claim C8: every code word decoding to the CMP or CMN preferred
alias (an ADDS/SUBS form, immediate or shifted/extended register, whose
nominal destination register field is 31) gets its destination cleared
to none (`Rd = -1`) while the alias's source registers stay correctly
populated. -/
theorem claim_C8_cmp_cmn_alias : ∀ code pc,
    (isCmpCmnImmediateAliasEncoding code →
      (decode code pc).Rd = -1 ∧
      (decode code pc).numSourceRegisters = 1 ∧
      (decode code pc).Rs.getD 0 (-1) = (bits code 9 5 : Int) ∧
      ((decode code pc).kind.getD 2 "" = "CMP (immediate)" ∨
        (decode code pc).kind.getD 2 "" = "CMN (immediate)")) ∧
    (isCmpCmnShiftedRegAliasEncoding code →
      (decode code pc).Rd = -1 ∧
      (decode code pc).numSourceRegisters = 2 ∧
      (decode code pc).Rs.getD 0 (-1) = (bits code 9 5 : Int) ∧
      (decode code pc).Rs.getD 1 (-1) = (bits code 20 16 : Int) ∧
      ((decode code pc).kind.getD 2 "" = "CMP (shifted register)" ∨
        (decode code pc).kind.getD 2 "" = "CMN (shifted register)")) ∧
    (isCmpCmnExtendedRegAliasEncoding code →
      (decode code pc).Rd = -1 ∧
      (decode code pc).numSourceRegisters = 2 ∧
      (decode code pc).Rs.getD 0 (-1) = (bits code 9 5 : Int) ∧
      (decode code pc).Rs.getD 1 (-1) = (bits code 20 16 : Int) ∧
      ((decode code pc).kind.getD 2 "" = "CMP (shifted register)" ∨
        (decode code pc).kind.getD 2 "" = "CMN (shifted register)")) := by
  intro code pc
  refine ⟨?_, ?_, ?_⟩
  · rintro ⟨h1, h2, h3, h4, h5⟩
    rw [decode_eq_dpimm code pc h1]
    simp only [decodeDataProcessingImmediate]
    simp only [h2, h3, h4, h5, reduceIte]
    have hop : bits code 30 30 < 2 := bits_lt code 30 30
    set o := bits code 30 30 with hodef
    have hf : bits code 31 31 < 2 := bits_lt code 31 31
    set f := bits code 31 31 with hfdef
    interval_cases o <;> interval_cases f <;>
      simp [finishParse, kindSize, RZR]
  · rintro ⟨h1, h2, h3, h4, h5, h6, h7⟩
    rw [decode_eq_dpreg code pc h1]
    simp only [decodeDataProcessingRegister]
    simp only [h2, h3, h4, h5, h6, h7, reduceIte]
    have hop : bits code 30 30 < 2 := bits_lt code 30 30
    set o := bits code 30 30 with hodef
    have hf : bits code 31 31 < 2 := bits_lt code 31 31
    set f := bits code 31 31 with hfdef
    interval_cases o <;> interval_cases f <;>
      simp [finishParse, kindSize, RZR]
  · rintro ⟨h1, h2, h3, h4, h5, h6, h7, h8⟩
    rw [decode_eq_dpreg code pc h1]
    simp only [decodeDataProcessingRegister]
    have h8' : ¬4 < bits code 12 10 := Nat.not_lt.mpr h8
    simp only [h2, h3, h4, h5, h6, h7, h8', reduceIte]
    have hop : bits code 30 30 < 2 := bits_lt code 30 30
    set o := bits code 30 30 with hodef
    have hf : bits code 31 31 < 2 := bits_lt code 31 31
    set f := bits code 31 31 with hfdef
    interval_cases o <;> interval_cases f <;>
      by_cases hsp : bits code 9 5 = 31 <;>
      by_cases he2 : bits code 15 13 = 2 <;>
      by_cases he3 : bits code 15 13 = 3 <;>
      simp [finishParse, kindSize, RZR, SP, hsp, he2, he3]

/-- Witness for C8: `CMP x3, #5` (word `0xF100147F`), `CMP x0, x3`
(word `0xEB03001F`) and `CMP x1, w2, UXTB` (word `0xEB22003F`) all
get their destination cleared. -/
theorem claim_C8_witness :
    (decode 0xF100147F 0).Rd = -1 ∧ (decode 0xEB03001F 0).Rd = -1 ∧
      (decode 0xEB22003F 0).Rd = -1 :=
  ⟨((claim_C8_cmp_cmn_alias 0xF100147F 0).1 (by decide)).1,
   ((claim_C8_cmp_cmn_alias 0xEB03001F 0).2.1 (by decide)).1,
   ((claim_C8_cmp_cmn_alias 0xEB22003F 0).2.2 (by decide)).1⟩

/-- Claim C2 (amended): for every instruction with in-range source
registers, the dependency update succeeds and gives each destination
register exactly the union of the pre-state dependency sets of all
source registers, leaving every other register's set unchanged; when
the instruction has zero source registers the destination's post-state
set is the empty set (not the singleton of the destination, as the
original claim stated). -/
theorem claim_C2_amended : ∀ (inst : Instruction) (depMap : DepMap),
    (∀ k < inst.numSourceRegisters.toNat,
      0 ≤ inst.Rs.getD k (-1) ∧ inst.Rs.getD k (-1) < (depMapSize : Int)) →
    ∃ m', ProcessRegisterDependencies inst depMap = some m' ∧
      (0 ≤ inst.Rd → m' inst.Rd.toNat = sourceDepsUnion inst depMap) ∧
      (0 ≤ inst.Rd2 → m' inst.Rd2.toNat = sourceDepsUnion inst depMap) ∧
      (inst.numSourceRegisters = 0 → 0 ≤ inst.Rd → m' inst.Rd.toNat = ∅) ∧
      (∀ r : Nat, (inst.Rd < 0 ∨ r ≠ inst.Rd.toNat) → (inst.Rd2 < 0 ∨ r ≠ inst.Rd2.toNat) →
        m' r = depMap r) := by
  intro inst depMap h
  have hz : inst.numSourceRegisters = 0 → sourceDepsUnion inst depMap = ∅ := by
    intro h0
    simp [sourceDepsUnion, h0]
  by_cases hRd : 0 ≤ inst.Rd <;> by_cases hRd2 : 0 ≤ inst.Rd2
  · have e1 := ProcessRegisterDependenciesOne_eq inst inst.Rd.toNat depMap h
    have e2 := ProcessRegisterDependenciesOne_eq inst inst.Rd2.toNat
      (Function.update depMap inst.Rd.toNat (sourceDepsUnion inst depMap)) h
    rw [sourceDepsUnion_update_self] at e2
    refine ⟨Function.update (Function.update depMap inst.Rd.toNat (sourceDepsUnion inst depMap))
      inst.Rd2.toNat (sourceDepsUnion inst depMap), ?_, ?_, ?_, ?_, ?_⟩
    · rw [ProcessRegisterDependencies, if_pos hRd, e1, Option.some_bind, if_pos hRd2, e2]
    · intro _
      by_cases hq : inst.Rd2.toNat = inst.Rd.toNat
      · rw [← hq, Function.update_same]
      · rw [Function.update_noteq (fun hc => hq hc.symm), Function.update_same]
    · intro _
      rw [Function.update_same]
    · intro h0 _
      by_cases hq : inst.Rd2.toNat = inst.Rd.toNat
      · rw [← hq, Function.update_same]
        exact hz h0
      · rw [Function.update_noteq (fun hc => hq hc.symm), Function.update_same]
        exact hz h0
    · intro r hr1 hr2
      have hr1' : r ≠ inst.Rd.toNat := hr1.resolve_left (not_lt.mpr hRd)
      have hr2' : r ≠ inst.Rd2.toNat := hr2.resolve_left (not_lt.mpr hRd2)
      rw [Function.update_noteq hr2', Function.update_noteq hr1']
  · have e1 := ProcessRegisterDependenciesOne_eq inst inst.Rd.toNat depMap h
    refine ⟨Function.update depMap inst.Rd.toNat (sourceDepsUnion inst depMap),
      ?_, ?_, ?_, ?_, ?_⟩
    · rw [ProcessRegisterDependencies, if_pos hRd, e1, Option.some_bind, if_neg hRd2]
    · intro _
      rw [Function.update_same]
    · intro hc
      exact absurd hc hRd2
    · intro h0 _
      rw [Function.update_same]
      exact hz h0
    · intro r hr1 _
      have hr1' : r ≠ inst.Rd.toNat := hr1.resolve_left (not_lt.mpr hRd)
      rw [Function.update_noteq hr1']
  · have e2 := ProcessRegisterDependenciesOne_eq inst inst.Rd2.toNat depMap h
    refine ⟨Function.update depMap inst.Rd2.toNat (sourceDepsUnion inst depMap),
      ?_, ?_, ?_, ?_, ?_⟩
    · rw [ProcessRegisterDependencies, if_neg hRd, Option.some_bind, if_pos hRd2, e2]
    · intro hc
      exact absurd hc hRd
    · intro _
      rw [Function.update_same]
    · intro _ hc
      exact absurd hc hRd
    · intro r _ hr2
      have hr2' : r ≠ inst.Rd2.toNat := hr2.resolve_left (not_lt.mpr hRd2)
      rw [Function.update_noteq hr2']
  · refine ⟨depMap, ?_, ?_, ?_, ?_, ?_⟩
    · rw [ProcessRegisterDependencies, if_neg hRd, Option.some_bind, if_neg hRd2]
    · intro hc
      exact absurd hc hRd
    · intro hc
      exact absurd hc hRd2
    · intro _ hc
      exact absurd hc hRd
    · intro r _ _
      rfl

/-- Counterexample for C2 as stated: the decoded `MOV x5, xzr` (word
`0xAA1F03E5`, a constant-producing alias with zero source registers
and known destination `x5`) gets post-state dependency set `∅` for
register 5, not the singleton `{5}` the claim demands. -/
theorem claim_C2_counterexample :
    (decode 0xAA1F03E5 0).numSourceRegisters = 0 ∧
    (decode 0xAA1F03E5 0).Rd = 5 ∧
    (decode 0xAA1F03E5 0).result = 0 ∧
    ((ProcessRegisterDependencies (decode 0xAA1F03E5 0) initialDepMap).map fun m => m 5) =
      some (∅ : Finset Nat) ∧
    some (∅ : Finset Nat) ≠ some ({5} : Finset Nat) := by
  refine ⟨by decide, by decide, by decide, by decide, by decide⟩

/-- Witness for C2 at the decoded `ADD x1, x0, #0x20`. -/
theorem claim_C2_witness :
    ∃ m', ProcessRegisterDependencies (decode 0x91008001 4) initialDepMap = some m' ∧
      (0 ≤ (decode 0x91008001 4).Rd →
        m' (decode 0x91008001 4).Rd.toNat =
          sourceDepsUnion (decode 0x91008001 4) initialDepMap) ∧
      (0 ≤ (decode 0x91008001 4).Rd2 →
        m' (decode 0x91008001 4).Rd2.toNat =
          sourceDepsUnion (decode 0x91008001 4) initialDepMap) ∧
      ((decode 0x91008001 4).numSourceRegisters = 0 → 0 ≤ (decode 0x91008001 4).Rd →
        m' (decode 0x91008001 4).Rd.toNat = ∅) ∧
      (∀ r : Nat, ((decode 0x91008001 4).Rd < 0 ∨ r ≠ (decode 0x91008001 4).Rd.toNat) →
        ((decode 0x91008001 4).Rd2 < 0 ∨ r ≠ (decode 0x91008001 4).Rd2.toNat) →
        m' r = initialDepMap r) :=
  claim_C2_amended (decode 0x91008001 4) initialDepMap (by decide)

/-- Claim C4: scanning forward from the start address, `findNth`
returns normally only with the associated value of the final counted
hit - the slot at which the match/skip counter reaches its final
decrement, i.e. the slot preceded by exactly `nToRetOn - 1` counted
hits - and only if that instruction satisfies the match predicate
(parts 1 and 2, pinning the returned value to exactly that slot's
value); otherwise it aborts fatally: with the exhaustion diagnostic -
carrying the requested count, the address, the return budget and the
byte budget - whenever the window holds fewer counted hits than
requested, for any byte budget (part 3); with the rets-first
diagnostic when a return instruction is encountered at any scan
position while the return budget is exactly zero (part 4); and with
the skip diagnostic naming the mnemonic when the final counted hit, at
any scan position, satisfies the skip predicate instead of the match
predicate (part 5). -/
theorem claim_C4_findNth : ∀ {V : Type},
    (∀ (stream : Nat → Option CsInsn) (matchF : CsInsn → Option V) (skipF : CsInsn → Bool)
        (nToRetOn addr : Nat) (retCount : Int) (szBytes : Nat) (v : V),
      findNth stream matchF skipF nToRetOn addr retCount szBytes = .ok v →
      ∃ k insn, k < szBytes / 4 ∧ stream k = some insn ∧ insn.isRet = false ∧
        matchF insn = some v ∧
        countHits stream matchF skipF 0 k + 1 = nToRetOn ∧
        (retCount < 0 ∨ (countRets stream 0 k : Int) ≤ retCount)) ∧
    (∀ (stream : Nat → Option CsInsn) (matchF : CsInsn → Option V) (skipF : CsInsn → Bool)
        (nToRetOn addr : Nat) (retCount : Int) (szBytes : Nat) (k : Nat) (insn : CsInsn)
        (v : V),
      k < szBytes / 4 → stream k = some insn → insn.isRet = false →
      matchF insn = some v →
      countHits stream matchF skipF 0 k + 1 = nToRetOn →
      (retCount < 0 ∨ (countRets stream 0 k : Int) ≤ retCount) →
      findNth stream matchF skipF nToRetOn addr retCount szBytes = .ok v) ∧
    (∀ (stream : Nat → Option CsInsn) (matchF : CsInsn → Option V) (skipF : CsInsn → Bool)
        (nToRetOn addr : Nat) (retCount : Int) (szBytes : Nat),
      countHits stream matchF skipF 0 (szBytes / 4) < nToRetOn →
      (retCount < 0 ∨ (countRets stream 0 (szBytes / 4) : Int) ≤ retCount) →
      findNth stream matchF skipF nToRetOn addr retCount szBytes =
        .error (.exhausted nToRetOn addr retCount szBytes)) ∧
    (∀ (stream : Nat → Option CsInsn) (matchF : CsInsn → Option V) (skipF : CsInsn → Bool)
        (nToRetOn addr : Nat) (retCount : Int) (szBytes : Nat) (k : Nat) (insn : CsInsn),
      k < szBytes / 4 → stream k = some insn → insn.isRet = true →
      (countRets stream 0 k : Int) = retCount →
      countHits stream matchF skipF 0 k < nToRetOn →
      findNth stream matchF skipF nToRetOn addr retCount szBytes =
        .error (.retsFirst nToRetOn addr retCount)) ∧
    (∀ (stream : Nat → Option CsInsn) (matchF : CsInsn → Option V) (skipF : CsInsn → Bool)
        (nToRetOn addr : Nat) (retCount : Int) (szBytes : Nat) (k : Nat) (insn : CsInsn),
      k < szBytes / 4 → stream k = some insn → insn.isRet = false →
      matchF insn = none → skipF insn = true →
      countHits stream matchF skipF 0 k + 1 = nToRetOn →
      (retCount < 0 ∨ (countRets stream 0 k : Int) ≤ retCount) →
      findNth stream matchF skipF nToRetOn addr retCount szBytes =
        .error (.skipAtFinal nToRetOn addr retCount insn.mnemonic)) := by
  intro V
  refine ⟨?_, ?_, ?_, ?_, ?_⟩
  · intro stream matchF skipF nToRetOn addr retCount szBytes v hrun
    obtain ⟨k, insn, hk, h2, h3, h4, h5, h6⟩ :=
      findNthGo_ok_final stream matchF skipF nToRetOn addr retCount szBytes
        (szBytes / 4) 0 nToRetOn retCount v hrun
    exact ⟨k, insn, hk, by simpa using h2, h3, h4, h5, h6⟩
  · intro stream matchF skipF nToRetOn addr retCount szBytes k insn v hk h2 h3 h4 h5 h6
    exact findNthGo_ok_of_final_match stream matchF skipF nToRetOn addr retCount szBytes
      (szBytes / 4) 0 nToRetOn retCount k insn v hk (by simpa using h2) h3 h4 h5 h6
  · intro stream matchF skipF nToRetOn addr retCount szBytes h5 h6
    exact findNthGo_exhausted stream matchF skipF nToRetOn addr retCount szBytes
      (szBytes / 4) 0 nToRetOn retCount h5 h6
  · intro stream matchF skipF nToRetOn addr retCount szBytes k insn hk h2 h3 h4 h5
    exact findNthGo_retsFirst stream matchF skipF nToRetOn addr retCount szBytes
      (szBytes / 4) 0 nToRetOn retCount k insn hk (by simpa using h2) h3 h4 h5
  · intro stream matchF skipF nToRetOn addr retCount szBytes k insn hk h2 h3 h4 hsk h5 h6
    exact findNthGo_skipAtFinal stream matchF skipF nToRetOn addr retCount szBytes
      (szBytes / 4) 0 nToRetOn retCount k insn hk (by simpa using h2) h3 h4 hsk h5 h6

/-- Witness for C4: in a 16-slot return-free window with calls at
slots 1 and 3, asking for the 2nd call returns the value pinned to
slot 3 - the final counted hit - while asking for a 3rd aborts with
the full exhaustion diagnostic despite the nonzero byte budget; a
stream with returns at slots 2 and 5 under a return budget of 1 aborts
with the rets-first diagnostic at the mid-scan slot 5; and a stream
whose 2nd counted hit, at mid-scan slot 4, is a skip-flagged `br`
aborts naming that mnemonic. -/
theorem claim_C4_witness :
    (∃ k insn, k < 64 / 4 ∧
      (fun i => if i = 1 ∨ i = 3 then some (⟨false, "bl"⟩ : CsInsn)
        else some ⟨false, "nop"⟩) k = some insn ∧
      insn.isRet = false ∧
      (fun c : CsInsn => if c.mnemonic == "bl" then some 77 else none) insn = some 77 ∧
      countHits (fun i => if i = 1 ∨ i = 3 then some (⟨false, "bl"⟩ : CsInsn)
        else some ⟨false, "nop"⟩)
        (fun c : CsInsn => if c.mnemonic == "bl" then some 77 else none)
        (fun _ => false) 0 k + 1 = 2 ∧
      ((-1 : Int) < 0 ∨ (countRets (fun i => if i = 1 ∨ i = 3 then
        some (⟨false, "bl"⟩ : CsInsn) else some ⟨false, "nop"⟩) 0 k : Int) ≤ -1)) ∧
    findNth (fun i => if i = 1 ∨ i = 3 then some (⟨false, "bl"⟩ : CsInsn)
        else some ⟨false, "nop"⟩)
      (fun c : CsInsn => if c.mnemonic == "bl" then some 77 else none)
      (fun _ => false) 2 4096 (-1) 64 = .ok 77 ∧
    findNth (fun i => if i = 1 ∨ i = 3 then some (⟨false, "bl"⟩ : CsInsn)
        else some ⟨false, "nop"⟩)
      (fun c : CsInsn => if c.mnemonic == "bl" then some 77 else none)
      (fun _ => false) 3 4096 (-1) 64 = .error (.exhausted 3 4096 (-1) 64) ∧
    findNth (fun i => if i = 2 ∨ i = 5 then some (⟨true, "ret"⟩ : CsInsn)
        else some ⟨false, "nop"⟩)
      (fun _ => (none : Option Nat)) (fun _ => false) 1 4096 1 64 =
      .error (.retsFirst 1 4096 1) ∧
    findNth (fun i => if i = 1 then some (⟨false, "bl"⟩ : CsInsn)
        else if i = 4 then some ⟨false, "br"⟩ else some ⟨false, "nop"⟩)
      (fun c : CsInsn => if c.mnemonic == "bl" then some 77 else none)
      (fun c => c.mnemonic == "br") 2 4096 (-1) 64 =
      .error (.skipAtFinal 2 4096 (-1) "br") :=
  ⟨claim_C4_findNth.1 _ _ _ 2 4096 (-1) 64 77 rfl,
   claim_C4_findNth.2.1 _ _ _ 2 4096 (-1) 64 3 ⟨false, "bl"⟩ 77 (by decide) rfl rfl rfl
     (by decide) (by decide),
   claim_C4_findNth.2.2.1 _ _ _ 3 4096 (-1) 64 (by decide) (by decide),
   claim_C4_findNth.2.2.2.1 _ _ _ 1 4096 1 64 5 ⟨true, "ret"⟩ (by decide) rfl rfl
     (by decide) (by decide),
   claim_C4_findNth.2.2.2.2 _ _ _ 2 4096 (-1) 64 4 ⟨false, "br"⟩ (by decide) rfl rfl rfl
     rfl (by decide) (by decide)⟩

/-- The decoder records the address it was given. -/
theorem decode_addr (code pc : Nat) : (decode code pc).addr = pc := rfl

theorem lookup_none_not_key : ∀ {l : List (Nat × Nat)} {a : Nat},
    l.lookup a = none → ∀ p ∈ l, p.1 ≠ a := by
  intro l
  induction l with
  | nil =>
    intro a _ p hp
    exact absurd hp (List.not_mem_nil p)
  | cons q l ih =>
    intro a h p hp hpa
    rw [show q = (q.1, q.2) from rfl, List.lookup_cons] at h
    split at h
    · exact absurd h (by simp)
    · rcases List.mem_cons.mp hp with rfl | hpl
      · rename_i hcond
        rw [hpa] at hcond
        simp at hcond
      · exact ih h p hpl hpa

theorem findOrCreate_hit (mem : Nat → Nat) (pc : Nat) (s : ParseState) (id : Nat)
    (h : s.codeToInstTree.lookup pc = some id) :
    FindOrCreateInstruction mem pc s = (id, s) := by
  rw [FindOrCreateInstruction, h]

theorem findOrCreate_miss (mem : Nat → Nat) (pc : Nat) (s : ParseState)
    (h : s.codeToInstTree.lookup pc = none) :
    FindOrCreateInstruction mem pc s =
      (s.nodes.length,
       { s with
         nodes := s.nodes ++ [{ inst := decode (mem pc) pc }]
         frontier := (s.nodes.length, s.dependencyMap) :: s.frontier
         codeToInstTree := (pc, s.nodes.length) :: s.codeToInstTree }) := by
  rw [FindOrCreateInstruction, h]

theorem nodes_length_pos {s : ParseState} {trace : List Nat} {entry : Nat}
    (hInv : TraversalInv s trace entry) : 0 < s.nodes.length := by
  have h := hInv.rootAddr
  rw [addrOf] at h
  rcases hget : s.nodes.get? 0 with _ | n
  · rw [hget] at h
    exact absurd h (by simp)
  · exact List.get?_eq_some.mp hget |>.1 |> fun h0 => h0

theorem addrOf_append (s : ParseState) (l : List InstructionTree) (id : Nat)
    (h : id < s.nodes.length) :
    ((s.nodes ++ l).get? id).map (fun n => n.inst.addr) = addrOf s id := by
  rw [addrOf, List.get?_append h]

theorem inv_findOrCreate (mem : Nat → Nat) (pc : Nat) (s : ParseState) (trace : List Nat)
    (entry : Nat) (hInv : TraversalInv s trace entry) :
    TraversalInv (FindOrCreateInstruction mem pc s).2 trace entry ∧
      s.nodes.length ≤ (FindOrCreateInstruction mem pc s).2.nodes.length ∧
      (∀ id, id < s.nodes.length →
        addrOf (FindOrCreateInstruction mem pc s).2 id = addrOf s id) := by
  rcases hl : s.codeToInstTree.lookup pc with _ | id
  · rw [findOrCreate_miss mem pc s hl]
    refine ⟨⟨?_, ?_, ?_, ?_, ?_, ?_⟩, ?_, ?_⟩
    · simp only [List.map_cons, List.cons_append]
      refine List.Nodup.cons ?_ hInv.nodup
      intro hmem
      exact absurd (hInv.bounded _ hmem) (lt_irrefl _)
    · intro id hid
      simp only [List.map_cons, List.cons_append, List.mem_cons] at hid
      simp only [List.length_append, List.length_singleton]
      rcases hid with rfl | hid
      · omega
      · have := hInv.bounded id hid
        omega
    · simp only [List.map_cons]
      refine List.Nodup.cons ?_ hInv.memoKeysNodup
      intro hmem
      obtain ⟨p, hp, hp1⟩ := List.mem_map.mp hmem
      exact lookup_none_not_key hl p hp hp1
    · intro p hp
      rcases List.mem_cons.mp hp with rfl | hp
      · show ((s.nodes ++ _).get? s.nodes.length).map _ = _
        rw [List.get?_append_right (le_refl _)]
        simp [decode_addr]
      · have hlt : p.2 < s.nodes.length := by
          have hs := hInv.memoSound p hp
          rw [addrOf] at hs
          rcases hget : s.nodes.get? p.2 with _ | n
          · rw [hget] at hs
            exact absurd hs (by simp)
          · exact (List.get?_eq_some.mp hget).1
        show ((s.nodes ++ _).get? p.2).map _ = _
        rw [addrOf_append s _ p.2 hlt]
        exact hInv.memoSound p hp
    · intro id hid hid0
      simp only [List.length_append, List.length_singleton] at hid
      by_cases hlt : id < s.nodes.length
      · obtain ⟨a, ha⟩ := hInv.memoComplete id hlt hid0
        exact ⟨a, List.mem_cons_of_mem _ ha⟩
      · have : id = s.nodes.length := by omega
        exact ⟨pc, this ▸ List.mem_cons_self _ _⟩
    · show ((s.nodes ++ _).get? 0).map _ = _
      rw [addrOf_append s _ 0 (nodes_length_pos hInv)]
      exact hInv.rootAddr
    · simp
    · intro id hid
      exact addrOf_append s _ id hid
  · rw [findOrCreate_hit mem pc s id hl]
    exact ⟨hInv, le_refl _, fun _ _ => rfl⟩

theorem addrOf_set (s : ParseState) (id : Nat) (node2 : InstructionTree)
    (haddr : ∀ n, s.nodes.get? id = some n → node2.inst.addr = n.inst.addr) :
    ∀ j, addrOf { s with nodes := s.nodes.set id node2 } j = addrOf s j := by
  intro j
  rw [addrOf, addrOf]
  show ((s.nodes.set id node2).get? j).map _ = (s.nodes.get? j).map _
  by_cases hj : j = id
  · subst hj
    by_cases hlt : j < s.nodes.length
    · obtain ⟨n, hget⟩ : ∃ n, s.nodes.get? j = some n :=
        ⟨s.nodes.get ⟨j, hlt⟩, List.get?_eq_get hlt⟩
    
      rw [hget, List.get?_eq_getElem?, List.getElem?_set_eq_of_lt _ hlt]
      simp [haddr n hget]
    · have h1 : s.nodes.get? j = none := List.get?_eq_none.mpr (le_of_not_lt hlt)
      have h2 : (s.nodes.set j node2).get? j = none := by
        rw [List.get?_eq_none]
        simp only [List.length_set]
        exact le_of_not_lt hlt
      rw [h1, h2]
  · rw [List.get?_eq_getElem?, List.get?_eq_getElem?,
      List.getElem?_set_ne (fun hc => hj hc.symm)]

theorem inv_setNode (s : ParseState) (trace : List Nat) (entry : Nat) (id : Nat)
    (node2 : InstructionTree) (hInv : TraversalInv s trace entry)
    (haddr : ∀ n, s.nodes.get? id = some n → node2.inst.addr = n.inst.addr) :
    TraversalInv { s with nodes := s.nodes.set id node2 } trace entry := by
  have hA := addrOf_set s id node2 haddr
  refine ⟨hInv.nodup, ?_, hInv.memoKeysNodup, ?_, ?_, ?_⟩
  · intro j hj
    simp only [List.length_set]
    exact hInv.bounded j hj
  · intro p hp
    rw [hA p.2]
    exact hInv.memoSound p hp
  · intro j hj hj0
    simp only [List.length_set] at hj
    exact hInv.memoComplete j hj hj0
  · rw [hA 0]
    exact hInv.rootAddr

theorem inv_candidates (s : ParseState) (trace : List Nat) (entry : Nat)
    (l : List (Nat × DepMap)) (hInv : TraversalInv s trace entry) :
    TraversalInv { s with functionCandidates := l } trace entry :=
  ⟨hInv.nodup, hInv.bounded, hInv.memoKeysNodup, hInv.memoSound, hInv.memoComplete,
   hInv.rootAddr⟩

theorem inv_depMap (s : ParseState) (trace : List Nat) (entry : Nat)
    (dm : DepMap) (hInv : TraversalInv s trace entry) :
    TraversalInv { s with dependencyMap := dm } trace entry :=
  ⟨hInv.nodup, hInv.bounded, hInv.memoKeysNodup, hInv.memoSound, hInv.memoComplete,
   hInv.rootAddr⟩

theorem inv_fallthroughState (mem : Nat → Nat) (a id : Nat) (node : InstructionTree)
    (s2 : ParseState) (trace : List Nat) (entry : Nat)
    (hInv2 : TraversalInv s2 trace entry) :
    TraversalInv
      { (FindOrCreateInstruction mem a s2).2 with
        nodes := (FindOrCreateInstruction mem a s2).2.nodes.set id
          { ((FindOrCreateInstruction mem a s2).2.nodes.getD id node) with
            noBranch := some (FindOrCreateInstruction mem a s2).1 } } trace entry := by
  obtain ⟨hInv3, hlen3, haddr3⟩ := inv_findOrCreate mem a s2 trace entry hInv2
  refine inv_setNode _ trace entry id _ hInv3 ?_
  intro n hn
  show ((FindOrCreateInstruction mem a s2).2.nodes.getD id node).inst.addr = n.inst.addr
  rw [List.getD_eq_get?, hn]
  rfl

theorem inv_populate (mem : Nat → Nat) (id : Nat) (s : ParseState) (trace : List Nat)
    (entry : Nat) (hInv : TraversalInv s trace entry) (s' : ParseState)
    (h : PopulateChildren mem id s = some s') : TraversalInv s' trace entry := by
  rw [PopulateChildren] at h
  rcases hget : s.nodes.get? id with _ | node
  · rw [hget] at h
    exact absurd h (by simp)
  · rw [hget] at h
    simp only [] at h
    split at h
    · injection h with h
      subst h
      exact hInv
    · split at h
      · injection h with h
        subst h
        exact hInv
      · rcases hdm : ProcessRegisterDependencies node.inst s.dependencyMap with _ | dm
        · rw [hdm] at h
          exact absurd h (by simp)
        · rw [hdm, Option.some_bind] at h
          have hInvMid : TraversalInv { s with dependencyMap := dm } trace entry :=
            inv_depMap s trace entry dm hInv
          obtain ⟨sB, hXB, hFB⟩ := Option.map_eq_some'.mp h
          have hInvB : TraversalInv sB trace entry := by
            rcases hdb : node.inst.isDirectBranch with _ | _
            · rw [hdb] at hXB
              simp only [Bool.false_eq_true, if_false] at hXB
              injection hXB with hXB
              subst hXB
              exact hInvMid
            · rw [hdb] at hXB
              simp only [if_true] at hXB
              rcases hlbl : node.inst.label with _ | lbl
              · rw [hlbl] at hXB
                exact absurd hXB (by simp)
              · rw [hlbl] at hXB
                have hInvSet : TraversalInv
                    { (FindOrCreateInstruction mem lbl.toNat { s with dependencyMap := dm }).2 with
                      nodes := (FindOrCreateInstruction mem lbl.toNat
                          { s with dependencyMap := dm }).2.nodes.set id
                        { ((FindOrCreateInstruction mem lbl.toNat
                            { s with dependencyMap := dm }).2.nodes.getD id node) with
                          branch := some (FindOrCreateInstruction mem lbl.toNat
                            { s with dependencyMap := dm }).1 } } trace entry := by
                  obtain ⟨hInv1, hlen1, haddr1⟩ :=
                    inv_findOrCreate mem lbl.toNat { s with dependencyMap := dm } trace
                      entry hInvMid
                  refine inv_setNode _ trace entry id _ hInv1 ?_
                  intro n hn
                  show ((FindOrCreateInstruction mem lbl.toNat
                    { s with dependencyMap := dm }).2.nodes.getD id node).inst.addr = n.inst.addr
                  rw [List.getD_eq_get?, hn]
                  rfl
                rcases hic : node.inst.isCall with _ | _
                · rw [hic] at hXB
                  simp only [Bool.false_eq_true, if_false] at hXB
                  injection hXB with hXB
                  subst hXB
                  exact hInvSet
                · rw [hic] at hXB
                  simp only [if_true] at hXB
                  injection hXB with hXB
                  subst hXB
                  exact inv_candidates _ trace entry _ hInvSet
          subst hFB
          rcases hub : node.inst.isUnconditionalBranch with _ | _
          · simp only [hub, Bool.not_false, if_true]
            exact inv_fallthroughState mem (node.inst.addr + 4) id node sB trace entry hInvB
          · simp only [hub, Bool.not_true, Bool.false_eq_true, if_false]
            exact hInvB

theorem inv_runLoop (mem : Nat → Nat) (entry : Nat) :
    ∀ (fuel : Nat) (s : ParseState) (trace : List Nat), TraversalInv s trace entry →
      ∀ sf tf, runLoop mem fuel s trace = some (sf, tf) → TraversalInv sf tf entry := by
  intro fuel
  induction fuel with
  | zero =>
    intro s trace hInv sf tf h
    rw [runLoop] at h
    split at h
    · injection h with h
      injection h with h1 h2
      subst h1
      subst h2
      exact hInv
    · exact absurd h (by simp)
  | succ fuel ih =>
    intro s trace hInv sf tf h
    rw [runLoop] at h
    rcases hf : s.frontier with _ | ⟨⟨id, dm⟩, rest⟩
    · rw [hf] at h
      simp only [] at h
      injection h with h
      injection h with h1 h2
      subst h1
      subst h2
      exact hInv
    · rw [hf] at h
      simp only [] at h
      have hInv1 : TraversalInv { s with frontier := rest, dependencyMap := dm }
          (trace ++ [id]) entry := by
        have hnd := hInv.nodup
        have hbd := hInv.bounded
        rw [hf] at hnd hbd
        have hperm : (rest.map Prod.fst ++ (trace ++ [id])).Perm
            (((id, dm) :: rest).map Prod.fst ++ trace) := by
          simp only [List.map_cons]
          have h1 : rest.map Prod.fst ++ (trace ++ [id]) =
              (rest.map Prod.fst ++ trace) ++ [id] := (List.append_assoc _ _ _).symm
          rw [h1]
          exact List.perm_append_singleton id _
        refine ⟨hperm.nodup_iff.mpr hnd, ?_, hInv.memoKeysNodup, hInv.memoSound,
          hInv.memoComplete, hInv.rootAddr⟩
        intro j hj
        exact hbd j (hperm.mem_iff.mp hj)
      rcases hpc : PopulateChildren mem id { s with frontier := rest, dependencyMap := dm }
        with _ | s2
      · rw [hpc] at h
        exact absurd h (by simp)
      · rw [hpc, Option.some_bind] at h
        exact ih s2 (trace ++ [id])
          (inv_populate mem id _ (trace ++ [id]) entry hInv1 s2 hpc) sf tf h

theorem inv_init (mem : Nat → Nat) (pc : Nat) :
    TraversalInv
      { nodes := [{ inst := decode (mem pc) pc }], frontier := [(0, initialDepMap)] }
      [] pc := by
  refine ⟨by simp, ?_, by simp, by simp, ?_, rfl⟩
  · intro j hj
    simp at hj
    simp [hj]
  · intro j hj hj0
    simp at hj
    exact absurd hj hj0

theorem nodes_at_addr_subsingleton (s : ParseState) (trace : List Nat) (entry : Nat)
    (hInv : TraversalInv s trace entry) (a : Nat) :
    ∀ x y, addrOf s x = some a → addrOf s y = some a → x ≠ 0 → y ≠ 0 → x = y := by
  intro x y hx hy hx0 hy0
  have hxlt : x < s.nodes.length := by
    rw [addrOf] at hx
    rcases hg : s.nodes.get? x with _ | n
    · rw [hg] at hx
      exact absurd hx (by simp)
    · exact (List.get?_eq_some.mp hg).1
  have hylt : y < s.nodes.length := by
    rw [addrOf] at hy
    rcases hg : s.nodes.get? y with _ | n
    · rw [hg] at hy
      exact absurd hy (by simp)
    · exact (List.get?_eq_some.mp hg).1
  obtain ⟨ax, hax⟩ := hInv.memoComplete x hxlt hx0
  obtain ⟨ay, hay⟩ := hInv.memoComplete y hylt hy0
  have hsx := hInv.memoSound (ax, x) hax
  have hsy := hInv.memoSound (ay, y) hay
  have haxa : ax = a := Option.some_inj.mp (hsx.symm.trans hx)
  have haya : ay = a := Option.some_inj.mp (hsy.symm.trans hy)
  subst haxa
  subst haya
  have hxy := List.inj_on_of_nodup_map hInv.memoKeysNodup hax hay rfl
  exact (Prod.ext_iff.mp hxy).2

theorem length_le_one_of_all_eq {l : List Nat} (hnd : l.Nodup)
    (h : ∀ x ∈ l, ∀ y ∈ l, x = y) : l.length ≤ 1 := by
  match l with
  | [] => simp
  | [x] => simp
  | x :: y :: rest =>
    exfalso
    have hxy := h x (by simp) y (by simp)
    rw [List.nodup_cons] at hnd
    exact hnd.1 (hxy ▸ List.mem_cons_self y rest)

theorem length_le_two_of_nonzero_eq {l : List Nat} (hnd : l.Nodup)
    (h : ∀ x ∈ l, ∀ y ∈ l, x ≠ 0 → y ≠ 0 → x = y) : l.length ≤ 2 := by
  match l with
  | [] => simp
  | [x] => simp
  | [x, y] => simp
  | x :: y :: z :: rest =>
    exfalso
    simp only [List.nodup_cons, List.mem_cons] at hnd
    have hxy : x ≠ y := fun hc => hnd.1 (Or.inl hc)
    have hxz : x ≠ z := fun hc => hnd.1 (Or.inr (Or.inl hc))
    have hyz : y ≠ z := fun hc => hnd.2.1 (Or.inl hc)
    by_cases hx0 : x = 0
    · have hy0 : y ≠ 0 := fun hc => hxy (hx0.trans hc.symm)
      have hz0 : z ≠ 0 := fun hc => hxz (hx0.trans hc.symm)
      exact hyz (h y (by simp) z (by simp) hy0 hz0)
    · by_cases hy0 : y = 0
      · have hz0 : z ≠ 0 := fun hc => hyz (hy0.trans hc.symm)
        exact hxz (h x (by simp) z (by simp) hx0 hz0)
      · exact hxy (h x (by simp) y (by simp) hx0 hy0)

theorem expansions_bound (s : ParseState) (trace : List Nat) (entry : Nat)
    (hInv : TraversalInv s trace entry) :
    (∀ a, a ≠ entry → expansionsAt s trace a ≤ 1) ∧ expansionsAt s trace entry ≤ 2 := by
  have htnd : trace.Nodup := (List.nodup_append.mp hInv.nodup).2.1
  have hP : ∀ (a : Nat) (id : Nat), id ∈ trace.filter (fun id2 =>
      match s.nodes.get? id2 with
      | some node => node.inst.addr == a
      | none => false) → addrOf s id = some a := by
    intro a id hid
    have := List.of_mem_filter hid
    rcases hg : s.nodes.get? id with _ | n
    · rw [hg] at this
      exact absurd this (by simp)
    · rw [hg] at this
      rw [addrOf, hg]
      simp only [beq_iff_eq] at this
      simp [this]
  constructor
  · intro a ha
    rw [expansionsAt]
    refine length_le_one_of_all_eq (htnd.filter _) ?_
    intro x hx y hy
    have hax := hP a x hx
    have hay := hP a y hy
    have hx0 : x ≠ 0 := by
      intro hc
      subst hc
      rw [hInv.rootAddr] at hax
      exact ha (Option.some_inj.mp hax).symm
    have hy0 : y ≠ 0 := by
      intro hc
      subst hc
      rw [hInv.rootAddr] at hay
      exact ha (Option.some_inj.mp hay).symm
    exact nodes_at_addr_subsingleton s trace entry hInv a x y hax hay hx0 hy0
  · rw [expansionsAt]
    refine length_le_two_of_nonzero_eq (htnd.filter _) ?_
    intro x hx y hy hx0 hy0
    exact nodes_at_addr_subsingleton s trace entry hInv entry x y
      (hP entry x hx) (hP entry y hy) hx0 hy0

/-- Claim C3 (amended): a `FindOrCreateInstruction` call for an
address already in the memo map returns the memoized node unchanged -
discarding the caller's dependency state - and a call for an absent
address creates the node, enqueues it with a copy of the current
dependency map and records it in the memo map; consequently in every
traversal run each distinct address other than the entry address is
expanded at most once, while the entry address may be expanded up to
twice, because the root node is pushed without being recorded in the
memo map. -/
theorem claim_C3_amended :
    (∀ (mem : Nat → Nat) (pc : Nat) (s : ParseState) (id : Nat),
      (s.codeToInstTree.lookup pc = some id → FindOrCreateInstruction mem pc s = (id, s)) ∧
      (s.codeToInstTree.lookup pc = none →
        FindOrCreateInstruction mem pc s =
          (s.nodes.length,
           { s with
             nodes := s.nodes ++ [{ inst := decode (mem pc) pc }]
             frontier := (s.nodes.length, s.dependencyMap) :: s.frontier
             codeToInstTree := (pc, s.nodes.length) :: s.codeToInstTree }))) ∧
    (∀ (mem : Nat → Nat) (pc fuel a : Nat), a ≠ pc →
      ((AssemblyFunctionRun mem pc fuel).map fun p => expansionsAt p.1 p.2 a).getD 0 ≤ 1) ∧
    (∀ (mem : Nat → Nat) (pc fuel : Nat),
      ((AssemblyFunctionRun mem pc fuel).map fun p => expansionsAt p.1 p.2 pc).getD 0 ≤ 2) := by
  refine ⟨fun mem pc s id => ⟨findOrCreate_hit mem pc s id, findOrCreate_miss mem pc s⟩, ?_, ?_⟩
  · intro mem pc fuel a ha
    rcases hrun : AssemblyFunctionRun mem pc fuel with _ | ⟨sf, tf⟩
    · simp
    · rw [AssemblyFunctionRun] at hrun
      have hInvf := inv_runLoop mem pc fuel _ [] (inv_init mem pc) sf tf hrun
      simp only [Option.map_some', Option.getD_some]
      exact (expansions_bound sf tf pc hInvf).1 a ha
  · intro mem pc fuel
    rcases hrun : AssemblyFunctionRun mem pc fuel with _ | ⟨sf, tf⟩
    · simp
    · rw [AssemblyFunctionRun] at hrun
      have hInvf := inv_runLoop mem pc fuel _ [] (inv_init mem pc) sf tf hrun
      simp only [Option.map_some', Option.getD_some]
      exact (expansions_bound sf tf pc hInvf).2

/-- Counterexample for C3 as stated: with every word the self-branch
`B .` (word `0x14000000`), the traversal from entry `0x1000` expands
the entry address twice - the root node is not in the memo map, so the
branch back to the entry creates and expands a second node there. -/
theorem claim_C3_counterexample :
    ((AssemblyFunctionRun (fun _ => 0x14000000) 0x1000 10).map
        fun p => expansionsAt p.1 p.2 0x1000) = some 2 ∧
      ¬(2 : Nat) ≤ 1 := by
  refine ⟨by decide, by decide⟩

/-- Witness for C3: a memo hit returns the memoized node with the
state unchanged, and the concrete self-loop run obeys the expansion
bounds. -/
theorem claim_C3_witness :
    FindOrCreateInstruction (fun _ => 0x14000000) 4096
        { nodes := [{ inst := decode 0x14000000 4096 }], codeToInstTree := [(4096, 0)] } =
      (0, { nodes := [{ inst := decode 0x14000000 4096 }], codeToInstTree := [(4096, 0)] }) ∧
      ((AssemblyFunctionRun (fun _ => 0x14000000) 4096 10).map
        fun p => expansionsAt p.1 p.2 4100).getD 0 ≤ 1 ∧
      ((AssemblyFunctionRun (fun _ => 0x14000000) 4096 10).map
        fun p => expansionsAt p.1 p.2 4096).getD 0 ≤ 2 :=
  ⟨(claim_C3_amended.1 (fun _ => 0x14000000) 4096
      { nodes := [{ inst := decode 0x14000000 4096 }], codeToInstTree := [(4096, 0)] } 0).1 rfl,
   claim_C3_amended.2.1 (fun _ => 0x14000000) 4096 10 4100 (by decide),
   claim_C3_amended.2.2 (fun _ => 0x14000000) 4096 10⟩

/-- Claim C9: decoding is deterministic - two runs of the decoder on
the same 4-byte code word at the same address produce identical
records. -/
theorem claim_C9_decode_deterministic :
    ∀ code pc (r1 r2 : Instruction), decode code pc = r1 → decode code pc = r2 → r1 = r2 :=
  fun _ _ _ _ h1 h2 => h1.symm.trans h2

/-- Witness for C9 at a concrete code word and address. -/
theorem claim_C9_witness :
    decode 0x14000000 0x1000 = decode 0x14000000 0x1000 :=
  claim_C9_decode_deterministic 0x14000000 0x1000 _ _ rfl rfl

/-- Claim C6: for every table base and case index at least 1, the
switch evaluator returns the table base plus the sign extension from 32
bits of the entry stored at `tableBase[caseIndex-1]`; with a first
entry of `-8` (stored as `0xFFFFFFF8`), case index 1 yields
`tableBase - 8`. -/
theorem claim_C6_evalswitch :
    (∀ (mem : Int → Nat) (tableBase caseIndex : Int), 1 ≤ caseIndex →
      EvalSwitchAddr mem tableBase caseIndex =
        tableBase + SignExtend (mem (tableBase + 4 * (caseIndex - 1))) 32) ∧
    (∀ (mem : Int → Nat) (tableBase : Int), mem tableBase = 0xFFFFFFF8 →
      EvalSwitchAddr mem tableBase 1 = tableBase - 8) := by
  constructor
  · intro mem tableBase caseIndex _
    rfl
  · intro mem tableBase h
    show tableBase + SignExtend (mem (tableBase + 4 * (1 - 1))) 32 = tableBase - 8
    norm_num [h, SignExtend]
    ring

/-- Witness for C6: a concrete one-entry switch table holding `-8` at a
concrete base address. -/
theorem claim_C6_witness :
    EvalSwitchAddr (fun _ => 0xFFFFFFF8) 0x2000 1 =
        0x2000 + SignExtend 0xFFFFFFF8 32 ∧
      EvalSwitchAddr (fun _ => 0xFFFFFFF8) 0x2000 1 = 0x2000 - 8 :=
  ⟨claim_C6_evalswitch.1 (fun _ => 0xFFFFFFF8) 0x2000 1 (by norm_num),
   claim_C6_evalswitch.2 (fun _ => 0xFFFFFFF8) 0x2000 rfl⟩

/-- Claim C7: when the first instruction is a PC-relative address form
with a computed result and the second carries a decoded immediate,
`ExtractAddress` returns the first's result plus the second's
immediate; when the second has no decoded immediate it returns the
no-result value 0. -/
theorem claim_C7_extract_address :
    (∀ (i1 i2 : Instruction) (off : Int), i1.isPcRelAdr = true → i2.imm = some off →
      ExtractAddress i1 i2 = i1.result + off) ∧
    (∀ i1 i2 : Instruction, i2.imm = none → ExtractAddress i1 i2 = 0) := by
  constructor
  · intro i1 i2 off _ h2
    simp [ExtractAddress, h2]
  · intro i1 i2 h2
    simp [ExtractAddress, h2]

/-- Witness for C7: a decoded `ADRP x0` computing page base `0x1000`
composed with a decoded `ADD x1, x0, #0x20` yields `0x1020`. -/
theorem claim_C7_witness :
    ExtractAddress (decode 0xB0000000 0) (decode 0x91008001 4) = 0x1020 :=
  (claim_C7_extract_address.1 (decode 0xB0000000 0) (decode 0x91008001 4) 0x20
    (by decide) (by decide)).trans (by decide)

/-- Claim C5 (code bug): for the compare-and-branch forms CBZ/CBNZ the
decoder stores only the sign-extended scaled offset in `label`, not the
absolute address `pc + offset` that the spec requires and that the
sibling B.cond and TBZ/TBNZ paths compute: at address `0x1000`, the
word `0xB4000040` (`CBZ x0, #8`) gets `label = 8` instead of `0x1008`,
while the word `0x36000040` (`TBZ x0, #0, #8`) gets `label = 0x1008`. -/
theorem claim_C5_cbz_label_bug :
    (decode 0xB4000040 0x1000).kind.getD 2 "" = "CBZ — 64-bit" ∧
    (decode 0xB4000040 0x1000).label = some 8 ∧
    (decode 0xB4000040 0x1000).label ≠ some 0x1008 ∧
    (decode 0x36000040 0x1000).kind.getD 2 "" = "TBZ" ∧
    (decode 0x36000040 0x1000).label = some 0x1008 := by
  refine ⟨by decide, by decide, by decide, by decide, by decide⟩

end BSHook
